import Mathlib

/-!
Verification of the TurboDrift2D simulation core
(source file: src/Games/TurboDrift2D/game.js).

The simulation core is embedded shallowly:

* geometry (collision kernel, checkpoint crossing, track sampling,
  respawn poses) is embedded over the real numbers, with JavaScript's
  `Math.hypot`/`Math.atan2`/`Math.cos`/`Math.sin` modelled by
  `Real.sqrt`/`Complex.arg`/`Real.cos`/`Real.sin`;
* exact arithmetic (the speed pipeline, tile/surface lookup, map
  loading) is embedded over the rationals and natural numbers, so that
  concrete runs are decidable;
* the mutable module-level globals of the source are modelled as
  explicit state records threaded through the functions that mutate
  them, and the `try`/`catch` wrapper of `loadTiledMap` is modelled by
  an `Except` whose error branch carries the state as mutated so far.
-/

namespace TurboDrift

/-- Embeds `clamp(v, min, max) = Math.max(min, Math.min(max, v))` (game.js line 26),
polymorphic over the linearly ordered scalar used by each component. -/
def clamp {α : Type} [LinearOrder α] (v lo hi : α) : α := max lo (min hi v)

/-- Embeds `lerp(a, b, t) = a + (b - a) * t` (game.js line 27). -/
def lerp {α : Type} [Ring α] (a b t : α) : α := a + (b - a) * t

/-- Embeds JavaScript's `String.prototype.includes`: `strIncludes hay needle`
is true when `needle` occurs contiguously inside `hay`. -/
def strIncludes (hay needle : String) : Bool :=
  hay.toList.tails.any (fun t => needle.toList.isPrefixOf t)

/-- Embeds `name.replace(/\s+/g, "")`: removes every whitespace character. -/
def stripWhitespace (s : String) : String :=
  String.mk (s.toList.filter (fun c => !c.isWhitespace))

/-- Embeds `parseInt(digits, 10)` on a string that must be a non-empty digit
run (the caller's regular expression `checkpoint[0-9]+` guarantees this);
returns `none` when the string is empty or holds a non-digit. -/
def parseDigits (s : String) : Option ℕ :=
  if s.toList ≠ [] ∧ s.toList.all Char.isDigit then
    some (s.toList.foldl (fun n c => n * 10 + (c.toNat - 48)) 0)
  else none

/-- Stable insertion of `x` into a list already sorted by the key `f`,
placing `x` after existing elements with an equal key: together with
`sortByKey` this models the stable `Array.prototype.sort` with comparator
`(a, b) => f(a) - f(b)` used by the map loader. -/
def insertByKey {α : Type} (f : α → ℕ) (x : α) : List α → List α
  | [] => [x]
  | y :: ys => if f y ≤ f x then y :: insertByKey f x ys else x :: y :: ys

/-- Stable sort by the natural-number key `f`; models
`.sort((a, b) => a.key - b.key)` on the loader's tileset and checkpoint lists. -/
def sortByKey {α : Type} (f : α → ℕ) : List α → List α
  | [] => []
  | x :: xs => insertByKey f x (sortByKey f xs)

/-! ### Collision kernel (game.js lines 834–890)

Pure geometric functions over the plane. Points are pairs of reals; the
JavaScript object arguments `{x, y}` of `resolveCircleCollision` are the
`P2` structure. -/

/-- Point in the plane, the shape of the `{x, y}` objects the collision
kernel receives. -/
structure P2 where
  x : ℝ
  y : ℝ

/-- Embeds `Math.hypot(x, y)`. -/
noncomputable def hypot (x y : ℝ) : ℝ := Real.sqrt (x * x + y * y)

/-- Embeds `circleCircleCollision(a, b, r)` (game.js lines 852–856):
overlap holds when the squared center distance is strictly below `r * r`. -/
def circleCircleCollision (a b : P2) (r : ℝ) : Prop :=
  (a.x - b.x) * (a.x - b.x) + (a.y - b.y) * (a.y - b.y) < r * r

/-- Embeds `resolveCircleCollision(a, b, r)` (game.js lines 858–864).
JavaScript's `Math.hypot(dx, dy) || 1` substitutes `1` for a zero distance;
the translation returned is `(dx / dist * overlap, dy / dist * overlap)`
with `overlap = r - dist`. -/
noncomputable def resolveCircleCollision (a b : P2) (r : ℝ) : P2 :=
  let dx := a.x - b.x
  let dy := a.y - b.y
  let dist := if hypot dx dy = 0 then 1 else hypot dx dy
  let overlap := r - dist
  ⟨dx / dist * overlap, dy / dist * overlap⟩

/-- Embeds `circleRectCollision(cx, cy, r, rx, ry, rw, rh)`
(game.js lines 866–872): the center is clamped to the rectangle and overlap
holds when the squared distance to that nearest point is strictly below `r * r`. -/
def circleRectCollision (cx cy r rx ry rw rh : ℝ) : Prop :=
  let nearestX := clamp cx rx (rx + rw)
  let nearestY := clamp cy ry (ry + rh)
  (cx - nearestX) * (cx - nearestX) + (cy - nearestY) * (cy - nearestY) < r * r

/-- Embeds `resolveCircleRect(cx, cy, r, rx, ry, rw, rh)`
(game.js lines 874–882), with the same `|| 1` guard as the circle case. -/
noncomputable def resolveCircleRect (cx cy r rx ry rw rh : ℝ) : P2 :=
  let nearestX := clamp cx rx (rx + rw)
  let nearestY := clamp cy ry (ry + rh)
  let dx := cx - nearestX
  let dy := cy - nearestY
  let dist := if hypot dx dy = 0 then 1 else hypot dx dy
  let overlap := r - dist
  ⟨dx / dist * overlap, dy / dist * overlap⟩

/-- Embeds `segmentIntersect(x1, y1, x2, y2, x3, y3, x4, y4)`
(game.js lines 884–890): the early `return false` on a zero denominator is
the conjunct `den ≠ 0`, and otherwise both parameters must lie in `[0, 1]`. -/
def segmentIntersect (x1 y1 x2 y2 x3 y3 x4 y4 : ℝ) : Prop :=
  let den := (x1 - x2) * (y3 - y4) - (y1 - y2) * (x3 - x4)
  let t := ((x1 - x3) * (y3 - y4) - (y1 - y3) * (x3 - x4)) / den
  let u := -((x1 - x2) * (y1 - y3) - (y1 - y2) * (x1 - x3)) / den
  den ≠ 0 ∧ 0 ≤ t ∧ t ≤ 1 ∧ 0 ≤ u ∧ u ≤ 1

/-! ### Surface classification (game.js lines 1079–1151)

Tile and surface lookups use only integer and rational arithmetic in the
source, so this component is embedded computably over `ℚ` and `ℕ`. -/

/-- Surface classification returned by `getSurfaceAt`: the string constants
`"road"`, `"ground"` and `"none"` of the source. -/
inductive Surface
  | road
  | ground
  | none
deriving DecidableEq, Repr

/-- Decoded tile layer as pushed by the loader (game.js lines 244–251). -/
structure TileLayer where
  name : String
  data : List ℕ
  width : ℕ
  height : ℕ
  opacity : ℚ
  visible : Bool
deriving DecidableEq, Repr

/-- Normalized tileset descriptor as published in `tiledTilesetMeta`
(game.js lines 188–201). -/
structure TilesetMeta where
  firstgid : ℕ
  name : String
  image : Option String
  imagewidth : ℕ
  imageheight : ℕ
  tilewidth : ℕ
  tileheight : ℕ
  spacing : ℕ
  margin : ℕ
  columns : ℕ
  tilecount : ℕ
deriving DecidableEq, Repr

/-- Embeds `findTilesetForGid(gid)` (game.js lines 211–218): scan the
ascending-sorted tileset list, remember the last tileset with
`firstgid ≤ gid`, and stop at the first tileset with `firstgid > gid`. -/
def findTilesetForGid (gid : ℕ) : List TilesetMeta → Option TilesetMeta
  | [] => Option.none
  | ts :: rest =>
    if ts.firstgid ≤ gid then some ((findTilesetForGid gid rest).getD ts)
    else Option.none

/-- Embeds the backwards layer scan of `getTileAt` (game.js lines 1087–1093):
walk the given list (already reversed, so topmost layer first), skip
invisible layers, and return the first non-zero raw gid at cell `(tx, ty)`;
`layer.data[idx] || 0` is `List.getD _ 0`. -/
def firstRawGid (tx ty : ℕ) : List TileLayer → ℕ
  | [] => 0
  | l :: rest =>
    if l.visible then
      let rawGid := l.data.getD (ty * l.width + tx) 0
      if rawGid ≠ 0 then rawGid else firstRawGid tx ty rest
    else firstRawGid tx ty rest

/-- Embeds `getTileAt(layers, x, y)` (game.js lines 1079–1095). The map and
tile dimensions are passed explicitly in place of the module globals
`tiledMapWidth`/`tiledMapHeight`/`tiledMapTileWidth`/`tiledMapTileHeight`;
the JavaScript `tiledMapWidth || layers[0].width` fallback is the
`if mapWidth ≠ 0` branch. -/
def getTileAt (tileW tileH : ℚ) (mapWidth mapHeight : ℕ)
    (layers : List TileLayer) (x y : ℚ) : ℕ :=
  match layers with
  | [] => 0
  | l0 :: _ =>
    if tileW ≤ 0 ∨ tileH ≤ 0 then 0
    else
      let tx : ℤ := ⌊x / tileW⌋
      let ty : ℤ := ⌊y / tileH⌋
      if tx < 0 ∨ ty < 0 then 0
      else
        let mapW : ℕ := if mapWidth ≠ 0 then mapWidth else l0.width
        let mapH : ℕ := if mapHeight ≠ 0 then mapHeight else l0.height
        if (mapW : ℤ) ≤ tx ∨ (mapH : ℤ) ≤ ty then 0
        else firstRawGid tx.toNat ty.toNat layers.reverse

/-- Embeds `getSurfaceFromGid(rawGid)` (game.js lines 1097–1112): mask off
the three flip bits (`rawGid & ~(FLIP_H | FLIP_V | FLIP_D)` keeps the low 29
bits), resolve the tileset, and classify by substrings of its name. -/
def getSurfaceFromGid (tilesetMeta : List TilesetMeta) (rawGid : ℕ) : Surface :=
  let gid := rawGid &&& 0x1FFFFFFF
  if gid = 0 then Surface.none
  else
    match findTilesetForGid gid tilesetMeta with
    | Option.none => Surface.none
    | some ts =>
      let name := ts.name.toLower
      if strIncludes name "road" ∨ strIncludes name "asphalt" then Surface.road
      else if strIncludes name "grass" ∨ strIncludes name "land" ∨
          strIncludes name "dirt" ∨ strIncludes name "sand" then Surface.ground
      else Surface.none

/-- Embeds the backwards scan of `getSurfaceAtAnyLayer` (game.js lines
1122–1133): the list is already reversed (topmost layer first), `found`
is the `foundGround` flag. -/
def anyLayerScan (meta : List TilesetMeta) (tx ty : ℕ) (found : Bool) :
    List TileLayer → Surface
  | [] => if found then Surface.ground else Surface.none
  | l :: rest =>
    if l.visible then
      let rawGid := l.data.getD (ty * l.width + tx) 0
      if rawGid = 0 then anyLayerScan meta tx ty found rest
      else
        match getSurfaceFromGid meta rawGid with
        | Surface.road => Surface.road
        | Surface.ground => anyLayerScan meta tx ty true rest
        | Surface.none => anyLayerScan meta tx ty found rest
    else anyLayerScan meta tx ty found rest

/-- The module-level tile state read by the surface lookups: decoded tile
layers, the road/ground sublists derived from them, the tileset metadata and
the map/tile dimensions (game.js lines 165–174). -/
structure TiledState where
  tileLayers : List TileLayer
  roadLayers : List TileLayer
  groundLayers : List TileLayer
  tilesetMeta : List TilesetMeta
  mapTileWidth : ℚ
  mapTileHeight : ℚ
  mapWidth : ℕ
  mapHeight : ℕ
deriving DecidableEq, Repr

/-- Embeds `getSurfaceAtAnyLayer(x, y)` (game.js lines 1114–1134). -/
def getSurfaceAtAnyLayer (st : TiledState) (x y : ℚ) : Surface :=
  match st.tileLayers with
  | [] => Surface.none
  | l0 :: _ =>
    let tx : ℤ := ⌊x / st.mapTileWidth⌋
    let ty : ℤ := ⌊y / st.mapTileHeight⌋
    if tx < 0 ∨ ty < 0 then Surface.none
    else
      let mapW : ℕ := if st.mapWidth ≠ 0 then st.mapWidth else l0.width
      let mapH : ℕ := if st.mapHeight ≠ 0 then st.mapHeight else l0.height
      if (mapW : ℤ) ≤ tx ∨ (mapH : ℤ) ≤ ty then Surface.none
      else anyLayerScan st.tilesetMeta tx.toNat ty.toNat false st.tileLayers.reverse

/-- Embeds `getSurfaceAt(x, y)` (game.js lines 1136–1151): when road-tagged
layers exist, a road hit wins, then a ground-layer hit, then any in-bounds
position is `"ground"` and an out-of-bounds one `"none"`; without road
layers the per-gid scan `getSurfaceAtAnyLayer` decides. -/
def getSurfaceAt (st : TiledState) (x y : ℚ) : Surface :=
  if st.roadLayers ≠ [] then
    let roadHit := getTileAt st.mapTileWidth st.mapTileHeight st.mapWidth st.mapHeight
      st.roadLayers x y
    if roadHit ≠ 0 then Surface.road
    else if st.groundLayers ≠ [] ∧
        getTileAt st.mapTileWidth st.mapTileHeight st.mapWidth st.mapHeight
          st.groundLayers x y ≠ 0 then Surface.ground
    else
      let tx : ℤ := ⌊x / st.mapTileWidth⌋
      let ty : ℤ := ⌊y / st.mapTileHeight⌋
      let mapW : ℕ := if st.mapWidth ≠ 0 then st.mapWidth
        else ((st.roadLayers.head?.map TileLayer.width).getD 0)
      let mapH : ℕ := if st.mapHeight ≠ 0 then st.mapHeight
        else ((st.roadLayers.head?.map TileLayer.height).getD 0)
      if 0 ≤ tx ∧ 0 ≤ ty ∧ tx < (mapW : ℤ) ∧ ty < (mapH : ℤ) then Surface.ground
      else Surface.none
  else getSurfaceAtAnyLayer st x y

/-! ### Speed pipeline of `updatePhysics` (game.js lines 931–1005)

Throttle integration, surface slow-down, the clamp to
`[-maxSurfaceSpeed * 0.5, maxSurfaceSpeed]`, and the post-clamp collision
damping (`car.speed *= 0.6` per overlapping obstacle, `*= 0.7` per
overlapping AI car). All constants are exact rationals, so the pipeline is
embedded over `ℚ`; the surface and the number of overlaps this tick are
inputs. -/

/-- Embeds the speed updates of `updatePhysics(dt)` for one tick: the
throttle/brake/drag branch (lines 945–951), the ground slow-down (lines
953–955), the clamp (lines 956–957) and the collision damping applied after
the position update (`*= 0.6` for each of the `nObstacle` overlapping
obstacles, `*= 0.7` for each of the `nAI` overlapping AI cars, lines
976–1005; the order of the damping factors does not matter for a product). -/
def updateSpeed (speed throttle dt : ℚ) (surface : Surface)
    (nObstacle nAI : ℕ) : ℚ :=
  let accel : ℚ := 260
  let maxSpeed : ℚ := 440
  let brake : ℚ := 340
  let drag : ℚ := 0.98
  let groundSlow : ℚ := 0.92
  let groundMaxSpeed : ℚ := 0.55
  let s1 := if 0 < throttle then speed + accel * throttle * dt
    else if throttle < 0 then speed + brake * throttle * dt
    else speed * drag
  let s2 := if surface = Surface.ground then s1 * groundSlow else s1
  let maxSurfaceSpeed := if surface = Surface.ground then maxSpeed * groundMaxSpeed
    else maxSpeed
  let s3 := clamp s2 (-(maxSurfaceSpeed * 0.5)) maxSurfaceSpeed
  s3 * (0.6 : ℚ) ^ nObstacle * (0.7 : ℚ) ^ nAI

/-! ### Track geometry (game.js lines 1050–1064 and 1281–1297)

The centerline polyline, its segment decomposition and arc-length
sampling. JavaScript's `Math.atan2(y, x)` is `Complex.arg ⟨x, y⟩`, which
has the same value on every input (including `atan2(0, 0) = 0`). -/

/-- Centerline point (`{x, y}` entries of `trackPath`). -/
structure Pt where
  x : ℝ
  y : ℝ

/-- Embeds `Math.atan2(y, x)`. -/
noncomputable def atan2 (y x : ℝ) : ℝ := Complex.arg ⟨x, y⟩

/-- Track segment record pushed by `buildTrackSegments`
(`{a, b, len, dx, dy}`, game.js line 1061). -/
structure TrackSegment where
  a : Pt
  b : Pt
  len : ℝ
  dx : ℝ
  dy : ℝ

/-- Embeds `buildTrackSegments()` (game.js lines 1050–1064): one segment per
consecutive centerline pair, skipping pairs whose length is `≤ 0`. The
module globals `trackSegments`/`trackLength` become the returned list and
`trackLengthOf` below. -/
noncomputable def buildTrackSegments : List Pt → List TrackSegment
  | p :: q :: rest =>
    let dx := q.x - p.x
    let dy := q.y - p.y
    let len := hypot dx dy
    if len ≤ 0 then buildTrackSegments (q :: rest)
    else ⟨p, q, len, dx, dy⟩ :: buildTrackSegments (q :: rest)
  | _ => []

/-- The accumulated `trackLength` of `buildTrackSegments`: the sum of the
kept segment lengths. -/
def trackLengthOf (segs : List TrackSegment) : ℝ := (segs.map TrackSegment.len).sum

/-- Sample returned by `sampleTrack` (`{x, y, angle}`). -/
structure TrackSample where
  x : ℝ
  y : ℝ
  angle : ℝ

/-- The walking loop of `sampleTrack(t)` (game.js lines 1284–1296): consume
`dist` along the segments; inside a segment interpolate linearly, and when
the loop exhausts the list return the final segment's endpoint — the
current segment is carried so that the fallback `trackSegments[len - 1]`
is the last element walked. -/
noncomputable def sampleWalk (dist : ℝ) (s : TrackSegment) :
    List TrackSegment → TrackSample
  | [] =>
    if dist ≤ s.len then
      ⟨s.a.x + s.dx * (dist / s.len), s.a.y + s.dy * (dist / s.len), atan2 s.dy s.dx⟩
    else ⟨s.b.x, s.b.y, atan2 s.dy s.dx⟩
  | s' :: rest =>
    if dist ≤ s.len then
      ⟨s.a.x + s.dx * (dist / s.len), s.a.y + s.dy * (dist / s.len), atan2 s.dy s.dx⟩
    else sampleWalk (dist - s.len) s' rest

/-- Embeds `sampleTrack(t)` (game.js lines 1281–1297): `null` when there are
no segments or the track length is zero, otherwise walk `t * trackLength`
down the segment list. -/
noncomputable def sampleTrack (segs : List TrackSegment) (t : ℝ) : Option TrackSample :=
  match segs with
  | [] => Option.none
  | s :: rest =>
    if trackLengthOf (s :: rest) = 0 then Option.none
    else some (sampleWalk (t * trackLengthOf (s :: rest)) s rest)

/-! ### Checkpoint tracker (game.js lines 892–929 and 1017–1038)

The `checkpoints` list, the crossing scan of `updatePhysics`, the
advance/respawn branch, and `respawnToCheckpoint`. The module globals it
mutates (`car`, `lastX`/`lastY`, `currentCheckpoint`, `lastCheckpointIndex`,
`lap`, `startSpawn`, `checkpoints`) form the `PhysState` record. -/

/-- Checkpoint line segment (`{x1, y1, x2, y2}`). -/
structure Checkpoint where
  x1 : ℝ
  y1 : ℝ
  x2 : ℝ
  y2 : ℝ

/-- Spawn pose (`{x, y, angle}`), the shape of `startSpawn` and of
`getCheckpointSpawn`'s result. -/
structure SpawnPose where
  x : ℝ
  y : ℝ
  angle : ℝ

/-- The module-level state read and written by the checkpoint tracker. -/
structure PhysState where
  carX : ℝ
  carY : ℝ
  carAngle : ℝ
  carSpeed : ℝ
  lastX : ℝ
  lastY : ℝ
  currentCheckpoint : ℕ
  lastCheckpointIndex : ℤ
  lap : ℕ
  startSpawn : SpawnPose
  checkpoints : List Checkpoint

/-- Embeds `getCheckpointSpawn(index)` (game.js lines 892–905): `null` when
the checkpoint is missing, otherwise a pose a fixed distance behind the
checkpoint midpoint along the perpendicular of its line. -/
noncomputable def getCheckpointSpawn (s : PhysState) (index : ℕ) : Option SpawnPose :=
  match s.checkpoints.get? index with
  | Option.none => Option.none
  | some cp =>
    let mx := (cp.x1 + cp.x2) / 2
    let my := (cp.y1 + cp.y2) / 2
    let lineAngle := atan2 (cp.y2 - cp.y1) (cp.x2 - cp.x1)
    let trackAngle := lineAngle + Real.pi / 2
    let backOffset : ℝ := 30
    some ⟨mx - Real.cos trackAngle * backOffset,
      my - Real.sin trackAngle * backOffset, trackAngle⟩

/-- Embeds `respawnToCheckpoint(index)` (game.js lines 907–929). A negative
index skips the checkpoint lookup, so the target falls back to `startSpawn`
(which the source always keeps non-null, hence the early `if (!target)
return` never fires and is not modelled); the heading points at the next
checkpoint's midpoint only when `index >= 0` and checkpoints exist; speed is
zeroed and the previous-position trace is reset to the new position. -/
noncomputable def respawnToCheckpoint (index : ℤ) (s : PhysState) : PhysState :=
  let spawn := if 0 ≤ index then getCheckpointSpawn s index.toNat else Option.none
  let target := spawn.getD ⟨s.startSpawn.x, s.startSpawn.y, s.startSpawn.angle⟩
  let carX := target.x
  let carY := target.y
  let carAngle :=
    if 0 ≤ index ∧ s.checkpoints.length ≠ 0 then
      let nextIndex := ((index + 1) % (s.checkpoints.length : ℤ)).toNat
      match s.checkpoints.get? nextIndex with
      | some next =>
        let nx := (next.x1 + next.x2) / 2
        let ny := (next.y1 + next.y2) / 2
        atan2 (ny - carY) (nx - carX)
      | Option.none => target.angle
    else target.angle
  { s with
    carX := carX
    carY := carY
    carAngle := carAngle
    carSpeed := 0
    lastX := carX
    lastY := carY }

open Classical in
/-- The crossing scan of `updatePhysics` (game.js lines 1018–1025): first
checkpoint index whose segment intersects the movement segment, scanning in
index order; `i` is the running loop counter. -/
noncomputable def findCrossedAux (x1 y1 x2 y2 : ℝ) (i : ℕ) :
    List Checkpoint → Option ℕ
  | [] => Option.none
  | cp :: rest =>
    if segmentIntersect x1 y1 x2 y2 cp.x1 cp.y1 cp.x2 cp.y2 then some i
    else findCrossedAux x1 y1 x2 y2 (i + 1) rest

/-- The crossed checkpoint index for a movement segment, `none` standing for
the source's `crossedIndex === -1`. -/
noncomputable def findCrossed (cps : List Checkpoint) (x1 y1 x2 y2 : ℝ) : Option ℕ :=
  findCrossedAux x1 y1 x2 y2 0 cps

/-- Embeds the crossing response of `updatePhysics` (game.js lines
1026–1037): a crossing of exactly `currentCheckpoint` records it in
`lastCheckpointIndex` and advances (wrapping to 0 increments `lap`); a
crossing of a later index respawns at `lastCheckpointIndex`; an earlier
index is ignored. -/
noncomputable def checkpointStep (crossed : Option ℕ) (s : PhysState) : PhysState :=
  match crossed with
  | Option.none => s
  | some i =>
    if i = s.currentCheckpoint then
      if s.checkpoints.length ≤ s.currentCheckpoint + 1 then
        { s with
          lastCheckpointIndex := (i : ℤ)
          currentCheckpoint := 0
          lap := s.lap + 1 }
      else
        { s with
          lastCheckpointIndex := (i : ℤ)
          currentCheckpoint := s.currentCheckpoint + 1 }
    else if s.currentCheckpoint < i then respawnToCheckpoint s.lastCheckpointIndex s
    else s

/-- The whole checkpoint block of `updatePhysics` for one tick (game.js
lines 1017–1038): runs only when checkpoints exist, testing the movement
segment `(lastX, lastY) → (car.x, car.y)`. -/
noncomputable def checkpointPass (s : PhysState) : PhysState :=
  if s.checkpoints.length ≠ 0 then
    checkpointStep (findCrossed s.checkpoints s.lastX s.lastY s.carX s.carY) s
  else s

/-! ### Map loader (game.js lines 119–163 and 177–434)

The loader mutates module-level globals incrementally while it parses:
`raceLaps` right after the JSON parse, the tileset metadata and map
dimensions before the layer loop, object-derived fields inside the layer
loop, and the remaining publishes after the loop, all inside one
`try { ... } catch {}`. The globals it touches form `GameState`; the whole
body is `runLoad`, an `Except` whose error branch carries the state as
mutated up to the failure point, and `loadTiledMap` is the `catch` that
swallows the error. Inputs that are asynchronous I/O in the source are
input data here: `fetchOk` for `res.ok`, `parsed = none` for a JSON body
that fails to parse, `imageFor` for the tileset-image resolver (the
`resolveTilesetImagePath` normalization is folded into it, and
`loadImage` never throws), and each tile layer's payload is classified by
its decode outcome (`decodeLayerData` below). Coordinates in a map
document are exact rationals. -/

/-- Centerline / polyline point of the loader (`{x, y}` with rational
coordinates). -/
structure QPt where
  x : ℚ
  y : ℚ
deriving DecidableEq, Repr

/-- Value of a Tiled custom property; the source checks
`typeof value === "number"` before using one, so non-numeric values are
collapsed into `other`. -/
inductive PropValue
  | num (v : ℚ)
  | other
deriving DecidableEq, Repr

/-- Entry of a `properties[]` array (`{name, value}`). -/
structure TiledProperty where
  name : String
  value : PropValue
deriving DecidableEq, Repr

/-- Tiled object of an object layer. Absent numeric fields carry `0`
(mirroring `obj.x || 0`; the `||` fallback treats an explicit `0` and an
absent field identically in the source), `rotation`/`gid`/`polyline`
distinguish absence by `Option` because the source tests their presence
(`typeof obj.rotation === "number"`, `typeof obj.gid === "number"`,
truthiness of `obj.polyline`), and an absent `name`/`type` is `""`. -/
structure TiledObject where
  name : String
  type : String
  x : ℚ
  y : ℚ
  width : ℚ
  height : ℚ
  rotation : Option ℚ
  gid : Option ℕ
  polyline : Option (List QPt)
  properties : List TiledProperty
deriving DecidableEq, Repr

/-- Decode outcome of a tile layer's `data` payload, classifying the input
of `decodeLayerData` (game.js lines 132–150) by what the decoder would do
with it: a plain integer array, a base64 payload that decodes to the given
cell values, a compressed payload with no `DecompressionStream` support in
the runtime (silently skipped), a payload whose decoding throws (invalid
base64), or no usable data (absent, or a non-base64 encoding). -/
inductive LayerDataSpec
  | plain (xs : List ℕ)
  | encoded (xs : List ℕ)
  | unsupported
  | malformed
  | missing
deriving DecidableEq, Repr

/-- Raw tile layer of the document (`type === "tilelayer"`). -/
structure RawTileLayer where
  name : String
  dataSpec : LayerDataSpec
  width : ℕ
  height : ℕ
  opacity : Option ℚ
  visible : Bool
deriving DecidableEq, Repr

/-- Layer of the document: a tile layer, an object group, or any other
layer type (skipped by the loader). -/
inductive TiledLayer
  | tile (l : RawTileLayer)
  | objectgroup (name : String) (objects : List TiledObject)
  | otherKind
deriving DecidableEq, Repr

/-- Raw tileset entry of the document; absent numeric fields carry `0`
(`ts.firstgid || 0` and friends) and an absent image is `none`
(`ts.image || null`). -/
structure RawTileset where
  firstgid : ℕ
  name : String
  image : Option String
  imagewidth : ℕ
  imageheight : ℕ
  tilewidth : ℕ
  tileheight : ℕ
  spacing : ℕ
  margin : ℕ
  columns : ℕ
  tilecount : ℕ
deriving DecidableEq, Repr

/-- The parsed map document (the result of `res.json()`); `width = 0`
models an absent `map.width`, as in `map.width || 0`. -/
structure TiledMapDoc where
  properties : List TiledProperty
  width : ℕ
  height : ℕ
  tilewidth : ℕ
  tileheight : ℕ
  layers : List TiledLayer
  tilesets : List RawTileset
deriving DecidableEq, Repr

/-- Embeds `decodeLayerData(layer)` on the payload classification: `error`
is a thrown exception (propagating to `loadTiledMap`'s `catch`), `ok none`
is the silent `return null`, `ok (some xs)` a successful decode. -/
def decodeLayerData : LayerDataSpec → Except Unit (Option (List ℕ))
  | LayerDataSpec.plain xs => Except.ok (some xs)
  | LayerDataSpec.encoded xs => Except.ok (some xs)
  | LayerDataSpec.unsupported => Except.ok Option.none
  | LayerDataSpec.malformed => Except.error ()
  | LayerDataSpec.missing => Except.ok Option.none

/-- Embeds `degToRad(deg) = deg * Math.PI / 180` (game.js line 28) on the
rational angles carried by map objects. -/
noncomputable def degToRad (deg : ℚ) : ℝ := (deg : ℝ) * Real.pi / 180

/-- Embeds `getObjectProperty(obj, key)` (game.js lines 119–123): value of
the first property with the given name, `none` for the `null` returns. -/
def getObjectProperty (o : TiledObject) (key : String) : Option PropValue :=
  (o.properties.find? (fun p => p.name == key)).map TiledProperty.value

/-- Spawn pose with rational position as stored by the loader
(`startSpawn`, `ai_spawn` objects); the angle comes through `degToRad` and
is real. -/
structure LoadSpawn where
  x : ℚ
  y : ℚ
  angle : ℝ

/-- Tile stamp pushed for an object bearing a `gid` (game.js lines
286–300); the resolved image handle is represented by the `firstgid` of
its tileset. -/
structure TrackTile where
  firstgid : ℕ
  sx : ℕ
  sy : ℕ
  sw : ℕ
  sh : ℕ
  x : ℚ
  y : ℚ
  w : ℚ
  h : ℚ
  rotation : ℚ
  flipH : Bool
  flipV : Bool
  flipD : Bool
deriving DecidableEq, Repr

/-- Static obstacle: the loader pushes either `{x, y, r}` circles or
`{x, y, w, h, isRect: true}` rectangles. -/
inductive Obstacle
  | circle (x y r : ℚ)
  | rect (x y w h : ℚ)
deriving DecidableEq, Repr

/-- Checkpoint segment as stored in the loader's `checkpoints` global
(`{x1, y1, x2, y2}` with rational coordinates). -/
structure QCheckpoint where
  x1 : ℚ
  y1 : ℚ
  x2 : ℚ
  y2 : ℚ
deriving DecidableEq, Repr

/-- Indexed AI waypoint accumulated in `newAICheckpoints`. -/
structure IndexedPt where
  index : ℕ
  x : ℚ
  y : ℚ
deriving DecidableEq, Repr

/-- Indexed checkpoint accumulated in `newMapCheckpoints`. -/
structure IndexedCheckpoint where
  index : ℕ
  x1 : ℚ
  y1 : ℚ
  x2 : ℚ
  y2 : ℚ
deriving DecidableEq, Repr

/-- The module-level globals read or written by `loadTiledMap`
(game.js lines 4–5, 165–175, 534–584). -/
structure GameState where
  raceLaps : ℤ
  worldWidth : ℕ
  worldHeight : ℕ
  tiledTrackTiles : List TrackTile
  tiledTileLayers : List TileLayer
  tiledRoadLayers : List TileLayer
  tiledGroundLayers : List TileLayer
  tiledTilesetMeta : List TilesetMeta
  tiledTilesetImages : List ℕ
  tiledMapTileWidth : ℕ
  tiledMapTileHeight : ℕ
  tiledMapWidth : ℕ
  tiledMapHeight : ℕ
  hasMapObjects : Bool
  trackPath : List QPt
  trackWidth : ℚ
  obstacles : List Obstacle
  checkpoints : List QCheckpoint
  hasMapObstacles : Bool
  hasMapCheckpoints : Bool
  currentCheckpoint : ℕ
  lastCheckpointIndex : ℤ
  carX : ℚ
  carY : ℚ
  carAngle : ℝ
  startSpawn : LoadSpawn
  aiSpawnPoints : List LoadSpawn
  aiCheckpoints : List QPt

/-- The locals accumulated across the layer loop (game.js lines 235–239):
`newTiles`, `newTileLayers`, `newAISpawns`, `newAICheckpoints`,
`newMapCheckpoints`. -/
structure LoadAcc where
  newTiles : List TrackTile
  newTileLayers : List TileLayer
  newAISpawns : List LoadSpawn
  newAICheckpoints : List IndexedPt
  newMapCheckpoints : List IndexedCheckpoint

/-- Embeds the `laps` map property handling (game.js lines 182–184): a
found property with a numeric value sets `raceLaps = max(1, floor(value))`,
anything else leaves it alone. -/
def applyLaps (doc : TiledMapDoc) (s : GameState) : GameState :=
  match doc.properties.find? (fun p => p.name == "laps") with
  | some p =>
    match p.value with
    | PropValue.num v => { s with raceLaps := max 1 ⌊v⌋ }
    | PropValue.other => s
  | Option.none => s

/-- Embeds the tileset normalization (game.js lines 188–201): `|| 0`
defaults and the `ts.tilewidth || map.tilewidth || 32` fallback chain. -/
def normalizeTileset (doc : TiledMapDoc) (ts : RawTileset) : TilesetMeta :=
  { firstgid := ts.firstgid
    name := ts.name
    image := ts.image
    imagewidth := ts.imagewidth
    imageheight := ts.imageheight
    tilewidth := if ts.tilewidth ≠ 0 then ts.tilewidth
      else if doc.tilewidth ≠ 0 then doc.tilewidth else 32
    tileheight := if ts.tileheight ≠ 0 then ts.tileheight
      else if doc.tileheight ≠ 0 then doc.tileheight else 32
    spacing := ts.spacing
    margin := ts.margin
    columns := ts.columns
    tilecount := ts.tilecount }

/-- Embeds the publishes done before the layer loop (game.js lines
220–233): tileset metadata and image map, the tile and map dimensions
(with `|| 32` fallbacks and the enlargement by the largest tileset tile),
and the world size when the map declares both dimensions. -/
def publishTilesets (doc : TiledMapDoc) (tilesetMeta : List TilesetMeta)
    (tilesetImages : List ℕ) (s : GameState) : GameState :=
  let baseTileW := if doc.tilewidth ≠ 0 then doc.tilewidth else 32
  let baseTileH := if doc.tileheight ≠ 0 then doc.tileheight else 32
  let tileW := tilesetMeta.foldl
    (fun acc ts => if acc < ts.tilewidth then ts.tilewidth else acc) baseTileW
  let tileH := tilesetMeta.foldl
    (fun acc ts => if acc < ts.tileheight then ts.tileheight else acc) baseTileH
  let s :=
    { s with
      tiledTilesetMeta := tilesetMeta
      tiledTilesetImages := tilesetImages
      tiledMapTileWidth := tileW
      tiledMapTileHeight := tileH
      tiledMapWidth := doc.width
      tiledMapHeight := doc.height }
  if doc.width ≠ 0 ∧ doc.height ≠ 0 then
    { s with worldWidth := doc.width * tileW, worldHeight := doc.height * tileH }
  else s

/-- The `^checkpoint\d+$` test plus `parseInt(name.replace("checkpoint",
""), 10)` (game.js lines 315–316): `some n` exactly when the lowercased
name is `checkpoint` followed by one or more digits. -/
def checkpointIndexOf (name : String) : Option ℕ :=
  if name.startsWith "checkpoint" then parseDigits (name.drop 10) else Option.none

/-- Embeds the body of the object loop (game.js lines 271–397) for one
object. Returns the updated globals, cross-layer accumulator, this layer's
`newObstacles`, and the `foundObjects` flag. -/
noncomputable def processObject (tilesetMeta : List TilesetMeta) (tilesetImages : List ℕ)
    (o : TiledObject) (s : GameState) (acc : LoadAcc)
    (newObstacles : List Obstacle) (foundObjects : Bool) :
    GameState × LoadAcc × List Obstacle × Bool :=
  match o.gid with
  | some rawGid =>
    let flipH := rawGid &&& 0x80000000 ≠ 0
    let flipV := rawGid &&& 0x40000000 ≠ 0
    let flipD := rawGid &&& 0x20000000 ≠ 0
    let gid := rawGid &&& 0x1FFFFFFF
    (match findTilesetForGid gid tilesetMeta with
    | Option.none => (s, acc, newObstacles, foundObjects)
    | some ts =>
      if tilesetImages.contains ts.firstgid then
        let columns := if ts.columns ≠ 0 then ts.columns
          else max 1 (ts.imagewidth / ts.tilewidth)
        let tileId := gid - ts.firstgid
        let t : TrackTile :=
          { firstgid := ts.firstgid
            sx := ts.margin + (tileId % columns) * (ts.tilewidth + ts.spacing)
            sy := ts.margin + (tileId / columns) * (ts.tileheight + ts.spacing)
            sw := ts.tilewidth
            sh := ts.tileheight
            x := o.x
            y := o.y
            w := if o.width ≠ 0 then o.width else (ts.tilewidth : ℚ)
            h := if o.height ≠ 0 then o.height else (ts.tileheight : ℚ)
            rotation := o.rotation.getD 0
            flipH := flipH
            flipV := flipV
            flipD := flipD }
        (s, { acc with newTiles := acc.newTiles ++ [t] }, newObstacles, foundObjects)
      else (s, acc, newObstacles, foundObjects))
  | Option.none =>
    let name := (if o.name ≠ "" then o.name else o.type).toLower
    let nameCompact := stripWhitespace name
    if name = "car" then
      let carX := if o.x ≠ 0 then o.x else s.carX
      let carY := if o.y ≠ 0 then o.y else s.carY
      let carAngle := match o.rotation with
        | some r => degToRad r
        | Option.none => s.carAngle
      let s :=
        { s with
          hasMapObjects := true
          carX := carX
          carY := carY
          carAngle := carAngle
          startSpawn := ⟨carX, carY, carAngle⟩ }
      (s, acc, newObstacles, true)
    else
      match checkpointIndexOf name with
      | some idx =>
        let acc :=
          { acc with
            newAICheckpoints := acc.newAICheckpoints ++
              [⟨idx, o.x + o.width / 2, o.y + o.height / 2⟩]
            newMapCheckpoints := acc.newMapCheckpoints ++
              [⟨idx, o.x, o.y, o.x + o.width, o.y + o.height⟩] }
        ({ s with hasMapObjects := true }, acc, newObstacles, true)
      | Option.none =>
        if nameCompact = "tracklimitbox" ∨ nameCompact = "tracklimit" ∨
            nameCompact = "tracklimit2" then
          let newObstacles := if 0 < o.width ∧ 0 < o.height then
              newObstacles ++ [Obstacle.rect o.x o.y o.width o.height]
            else newObstacles
          ({ s with hasMapObjects := true }, acc, newObstacles, true)
        else if name = "ai_spawn" then
          let angle : ℝ := match o.rotation with
            | some r => degToRad r
            | Option.none => 0
          (s, { acc with newAISpawns := acc.newAISpawns ++ [⟨o.x, o.y, angle⟩] },
            newObstacles, foundObjects)
        else if name = "obstacle" then
          let r : ℚ := match getObjectProperty o "radius" with
            | some (PropValue.num r) => r
            | _ => 18
          ({ s with hasMapObjects := true }, acc,
            newObstacles ++ [Obstacle.circle o.x o.y r], true)
        else if name = "checkpoint" then
          let cp : IndexedCheckpoint :=
            match o.polyline with
            | some (p0 :: p1 :: rest) =>
              let plast := ((p0 :: p1 :: rest).getLast?).getD p0
              ⟨acc.newMapCheckpoints.length, o.x + p0.x, o.y + p0.y,
                o.x + plast.x, o.y + plast.y⟩
            | _ =>
              ⟨acc.newMapCheckpoints.length, o.x, o.y,
                o.x + o.width, o.y + o.height⟩
          ({ s with hasMapObjects := true },
            { acc with newMapCheckpoints := acc.newMapCheckpoints ++ [cp] },
            newObstacles, true)
        else (s, acc, newObstacles, foundObjects)

/-- The object loop of one object layer (game.js lines 271–397). -/
noncomputable def processObjects (tilesetMeta : List TilesetMeta) (tilesetImages : List ℕ)
    (objects : List TiledObject) (s : GameState) (acc : LoadAcc)
    (newObstacles : List Obstacle) (foundObjects : Bool) :
    GameState × LoadAcc × List Obstacle × Bool :=
  match objects with
  | [] => (s, acc, newObstacles, foundObjects)
  | o :: rest =>
    match processObject tilesetMeta tilesetImages o s acc newObstacles foundObjects with
    | (s', acc', obs', found') =>
      processObjects tilesetMeta tilesetImages rest s' acc' obs' found'

/-- The `track_path` handling of an object layer (game.js lines 259–266):
on a layer named `track`, a polyline object named `track_path` replaces the
centerline (offset by the object origin) and an optional numeric
`trackWidth` property replaces the track width. -/
def applyTrackPath (lname : String) (objects : List TiledObject) (s : GameState) :
    GameState :=
  let layerName := lname.toLower
  match objects.find? (fun o => o.name.toLower == "track_path" && o.polyline.isSome) with
  | some trackObj =>
    if layerName = "track" then
      match trackObj.polyline with
      | some pl =>
        let s := { s with trackPath := pl.map (fun p => ⟨trackObj.x + p.x, trackObj.y + p.y⟩) }
        match getObjectProperty trackObj "trackWidth" with
        | some (PropValue.num w) => { s with trackWidth := w }
        | _ => s
      | Option.none => s
    else s
  | Option.none => s

/-- The `foundObjects` block of an object layer (game.js lines 399–413):
wholesale replacement of the obstacle and checkpoint lists (the checkpoints
sorted by their declared index) and the reset of checkpoint progress. -/
def applyFoundObjects (newObstacles : List Obstacle)
    (newMapCheckpoints : List IndexedCheckpoint) (s : GameState) : GameState :=
  let s := if newObstacles ≠ [] then
      { s with obstacles := newObstacles, hasMapObstacles := true }
    else s
  let s := if newMapCheckpoints ≠ [] then
      { s with
        checkpoints := (sortByKey IndexedCheckpoint.index newMapCheckpoints).map
          (fun c => ⟨c.x1, c.y1, c.x2, c.y2⟩)
        hasMapCheckpoints := true }
    else s
  { s with currentCheckpoint := 0, lastCheckpointIndex := -1 }

/-- Embeds the handling of one object layer (game.js lines 255–413): the
`track_path` centerline, the object loop, and the `foundObjects` block. -/
noncomputable def processObjectGroup (tm : List TilesetMeta) (ti : List ℕ)
    (lname : String) (objects : List TiledObject) (s : GameState) (acc : LoadAcc) :
    GameState × LoadAcc :=
  let s := applyTrackPath lname objects s
  match processObjects tm ti objects s acc [] false with
  | (s, acc, newObstacles, foundObjects) =>
    if foundObjects then (applyFoundObjects newObstacles acc.newMapCheckpoints s, acc)
    else (s, acc)

/-- The layer loop (game.js lines 240–414); a tile layer whose payload
fails to decode throws, carried as the error branch with the state as
mutated so far. -/
noncomputable def processLayers (tilesetMeta : List TilesetMeta) (tilesetImages : List ℕ)
    (layers : List TiledLayer) (s : GameState) (acc : LoadAcc) :
    Except GameState (GameState × LoadAcc) :=
  match layers with
  | [] => Except.ok (s, acc)
  | TiledLayer.tile l :: rest =>
    (match decodeLayerData l.dataSpec with
    | Except.error _ => Except.error s
    | Except.ok Option.none => processLayers tilesetMeta tilesetImages rest s acc
    | Except.ok (some xs) =>
      if xs ≠ [] then
        let layer : TileLayer :=
          { name := l.name
            data := xs
            width := l.width
            height := l.height
            opacity := l.opacity.getD 1
            visible := l.visible }
        processLayers tilesetMeta tilesetImages rest s
          { acc with newTileLayers := acc.newTileLayers ++ [layer] }
      else processLayers tilesetMeta tilesetImages rest s acc)
  | TiledLayer.objectgroup lname objects :: rest =>
    (match processObjectGroup tilesetMeta tilesetImages lname objects s acc with
    | (s', acc') => processLayers tilesetMeta tilesetImages rest s' acc')
  | TiledLayer.otherKind :: rest => processLayers tilesetMeta tilesetImages rest s acc

/-- Embeds the publishes after the layer loop (game.js lines 415–430):
conditional replacement of the tile stamps and decoded layers, the
road/ground layer filters, the AI spawn and waypoint lists, and the
clearing of gameplay objects for a purely tile-art map. -/
def finalizeLoad (s : GameState) (acc : LoadAcc) : GameState :=
  let s := if acc.newTiles ≠ [] then { s with tiledTrackTiles := acc.newTiles } else s
  let s := if acc.newTileLayers ≠ [] then { s with tiledTileLayers := acc.newTileLayers }
    else s
  let s : GameState :=
    { s with
      tiledRoadLayers := s.tiledTileLayers.filter
        (fun l => strIncludes l.name.toLower "road")
      tiledGroundLayers := s.tiledTileLayers.filter
        (fun l => strIncludes l.name.toLower "ground")
      aiSpawnPoints := acc.newAISpawns
      aiCheckpoints := (sortByKey IndexedPt.index acc.newAICheckpoints).map
        (fun p => ⟨p.x, p.y⟩) }
  if (s.tiledTrackTiles ≠ []) ∧ (s.hasMapObjects = false) then
    { s with
      obstacles := ([] : List Obstacle)
      checkpoints := ([] : List QCheckpoint)
      hasMapObstacles := false
      hasMapCheckpoints := false
      currentCheckpoint := 0
      lastCheckpointIndex := -1 }
  else s

/-- The `try` body of `loadTiledMap(mapFile)` (game.js lines 178–430) with
the state threaded explicitly: `ok` is a run that reaches the end, `error`
is a thrown exception carrying the state as mutated up to the throw. -/
noncomputable def runLoad (fetchOk : Bool) (parsed : Option TiledMapDoc)
    (imageFor : String → Bool) (s : GameState) : Except GameState GameState :=
  if fetchOk = false then Except.ok s
  else
    match parsed with
    | Option.none => Except.error s
    | some doc =>
      let s := applyLaps doc s
      let tilesetMeta := sortByKey TilesetMeta.firstgid
        (doc.tilesets.map (normalizeTileset doc))
      let tilesetImages := tilesetMeta.filterMap (fun ts =>
        match ts.image with
        | some path => if imageFor path then some ts.firstgid else Option.none
        | Option.none => Option.none)
      let s := publishTilesets doc tilesetMeta tilesetImages s
      match processLayers tilesetMeta tilesetImages doc.layers s ⟨[], [], [], [], []⟩ with
      | Except.error s' => Except.error s'
      | Except.ok (s', acc) => Except.ok (finalizeLoad s' acc)

/-- Embeds `loadTiledMap(mapFile)` (game.js lines 177–434): the
`try`/`catch` swallows every failure, so the call always returns — but the
error branch returns the state as mutated up to the failure point, not the
original state. -/
noncomputable def loadTiledMap (fetchOk : Bool) (parsed : Option TiledMapDoc)
    (imageFor : String → Bool) (s : GameState) : GameState :=
  match runLoad fetchOk parsed imageFor s with
  | Except.ok s' => s'
  | Except.error s' => s'

/-- The initial values of the loader's globals (game.js lines 4–5,
534–599): the default obstacles, track path, checkpoints, spawn and lap
count active before any map is loaded. -/
noncomputable def initialState : GameState :=
  { raceLaps := 3
    worldWidth := 1280
    worldHeight := 720
    tiledTrackTiles := []
    tiledTileLayers := []
    tiledRoadLayers := []
    tiledGroundLayers := []
    tiledTilesetMeta := []
    tiledTilesetImages := []
    tiledMapTileWidth := 32
    tiledMapTileHeight := 32
    tiledMapWidth := 0
    tiledMapHeight := 0
    hasMapObjects := false
    trackPath := [⟨180, 200⟩, ⟨980, 200⟩, ⟨980, 360⟩, ⟨760, 360⟩, ⟨760, 520⟩,
      ⟨300, 520⟩, ⟨300, 360⟩, ⟨540, 360⟩, ⟨540, 200⟩, ⟨180, 200⟩]
    trackWidth := 110
    obstacles := [Obstacle.circle 420 260 18, Obstacle.circle 880 220 18,
      Obstacle.circle 960 500 18, Obstacle.circle 520 520 18]
    checkpoints := [⟨260, 260, 260, 500⟩, ⟨980, 260, 980, 480⟩,
      ⟨360, 200, 700, 200⟩, ⟨360, 560, 700, 560⟩]
    hasMapObstacles := false
    hasMapCheckpoints := false
    currentCheckpoint := 0
    lastCheckpointIndex := -1
    carX := 320
    carY := 360
    carAngle := degToRad 0
    startSpawn := ⟨320, 360, degToRad 0⟩
    aiSpawnPoints := []
    aiCheckpoints := [] }

/-- Tile layer whose base64 payload is invalid: its decode throws
(`atob` raises on malformed input). -/
def malformedTileLayer : RawTileLayer :=
  { name := "layer1"
    dataSpec := LayerDataSpec.malformed
    width := 4
    height := 4
    opacity := Option.none
    visible := true }

/-- Map document carrying a numeric `laps` property followed by a tile
layer whose payload fails to decode: parsing applies the lap count and
then throws. -/
def lapsThenFailDoc (v : ℚ) : TiledMapDoc :=
  { properties := [⟨"laps", PropValue.num v⟩]
    width := 0
    height := 0
    tilewidth := 0
    tileheight := 0
    layers := [TiledLayer.tile malformedTileLayer]
    tilesets := [] }

/-- Minimal map document whose only content is a numeric `laps` property
of the given value; loading it succeeds end to end. -/
def lapsOnlyDoc (v : ℚ) : TiledMapDoc :=
  { properties := [⟨"laps", PropValue.num v⟩]
    width := 0
    height := 0
    tilewidth := 0
    tileheight := 0
    layers := []
    tilesets := [] }

/-- The condition under which the `laps` override fires (game.js lines
183–184): the value of the first map property named `laps`, provided it is
numeric. -/
def lapsNumOf (doc : TiledMapDoc) : Option ℚ :=
  match doc.properties.find? (fun p => p.name == "laps") with
  | some p =>
    match p.value with
    | PropValue.num v => some v
    | PropValue.other => Option.none
  | Option.none => Option.none

/-- The three-point centerline of the specification scenario:
`(0,0) - (100,0) - (100,100)`. -/
noncomputable def demoPath : List Pt := [⟨0, 0⟩, ⟨100, 0⟩, ⟨100, 100⟩]

/-- Concrete checkpoint-tracker state: four checkpoints, the third of which
(index 2) is crossed by the tick's movement segment `(4,0) → (6,0)`, while
`currentCheckpoint` is still `0` and no checkpoint has been passed yet. -/
noncomputable def crossState : PhysState :=
  { carX := 6
    carY := 0
    carAngle := 0
    carSpeed := 100
    lastX := 4
    lastY := 0
    currentCheckpoint := 0
    lastCheckpointIndex := -1
    lap := 1
    startSpawn := ⟨320, 360, 0⟩
    checkpoints := [⟨100, 0, 100, 1⟩, ⟨200, 0, 200, 1⟩, ⟨5, -1, 5, 1⟩,
      ⟨300, 0, 300, 1⟩] }

/-- Concrete road-tagged tile layer of a 2×2 map whose only road tile sits
in cell `(0, 0)`. -/
def roadLayerDemo : TileLayer :=
  { name := "road"
    data := [1, 0, 0, 0]
    width := 2
    height := 2
    opacity := 1
    visible := true }

/-- Concrete tile state with one road-tagged layer, no ground-tagged
layer, a 2×2 map and 32×32 tiles. -/
def surfaceDemo : TiledState :=
  { tileLayers := [roadLayerDemo]
    roadLayers := [roadLayerDemo]
    groundLayers := []
    tilesetMeta := []
    mapTileWidth := 32
    mapTileHeight := 32
    mapWidth := 2
    mapHeight := 2 }

/-! ## Theorems -/

/-- Bounds of `clamp` whenever the interval is non-degenerate. -/
theorem clamp_bounds {α : Type} [LinearOrder α] (v lo hi : α) (h : lo ≤ hi) :
    lo ≤ clamp v lo hi ∧ clamp v lo hi ≤ hi :=
  ⟨le_max_left _ _, max_le h (min_le_left _ _)⟩

/-- The square root in `hypot` is non-negative. -/
theorem hypot_nonneg (x y : ℝ) : 0 ≤ hypot x y := Real.sqrt_nonneg _

/-- Squaring `hypot` recovers the sum of squares. -/
theorem hypot_sq (x y : ℝ) : hypot x y * hypot x y = x * x + y * y :=
  Real.mul_self_sqrt (add_nonneg (mul_self_nonneg x) (mul_self_nonneg y))

/-- The hypotenuse vanishes exactly on the zero vector. -/
theorem hypot_eq_zero_iff (x y : ℝ) : hypot x y = 0 ↔ x = 0 ∧ y = 0 := by
  unfold hypot
  rw [Real.sqrt_eq_zero' ]
  constructor
  · intro h
    have hx : x * x = 0 :=
      le_antisymm (by nlinarith [mul_self_nonneg x, mul_self_nonneg y]) (mul_self_nonneg x)
    have hy : y * y = 0 :=
      le_antisymm (by nlinarith [mul_self_nonneg x, mul_self_nonneg y]) (mul_self_nonneg y)
    exact ⟨mul_self_eq_zero.mp hx, mul_self_eq_zero.mp hy⟩
  · rintro ⟨hx, hy⟩
    simp [hx, hy]

/-- Scaling both coordinates scales the hypotenuse by the absolute factor. -/
theorem hypot_mul_const (x y c : ℝ) : hypot (x * c) (y * c) = hypot x y * |c| := by
  unfold hypot
  rw [show x * c * (x * c) + y * c * (y * c) = (x * x + y * y) * (c * c) by ring,
    Real.sqrt_mul (add_nonneg (mul_self_nonneg x) (mul_self_nonneg y)),
    Real.sqrt_mul_self_eq_abs]

/-- C2 counterexample: in the specification scenario — obstacle circle at
`(100, 100)` with radius 18 and the vehicle circle of radius 18 moved to
`(100, 100)` — applying the resolution translation does NOT leave the
vehicle at distance 36 from the obstacle center: the translation is zero,
so the distance stays 0. -/
theorem resolveCircleCollision_coincident_cex :
    ¬ (hypot ((100 + (resolveCircleCollision ⟨100, 100⟩ ⟨100, 100⟩ (18 + 18)).x) - 100)
        ((100 + (resolveCircleCollision ⟨100, 100⟩ ⟨100, 100⟩ (18 + 18)).y) - 100)
        = 18 + 18) := by
  have hres : resolveCircleCollision ⟨100, 100⟩ ⟨100, 100⟩ (18 + 18) = ⟨0, 0⟩ := by
    simp [resolveCircleCollision, hypot]
  rw [hres]
  intro h
  simp [hypot] at h
  norm_num at h

/-- C2 (amended): when the two centers coincide (distance exactly zero),
`resolveCircleCollision` substitutes 1 for the distance to avoid a division
by zero, but because `dx = dy = 0` the returned translation is the zero
vector — no arbitrary unit axis is chosen; in the scenario the vehicle is
left exactly at the obstacle center, at distance 0. -/
theorem resolveCircleCollision_coincident :
    (∀ (x y r : ℝ), resolveCircleCollision ⟨x, y⟩ ⟨x, y⟩ r = ⟨0, 0⟩) ∧
    hypot ((100 + (resolveCircleCollision ⟨100, 100⟩ ⟨100, 100⟩ (18 + 18)).x) - 100)
      ((100 + (resolveCircleCollision ⟨100, 100⟩ ⟨100, 100⟩ (18 + 18)).y) - 100) = 0 := by
  have h1 : ∀ (x y r : ℝ), resolveCircleCollision ⟨x, y⟩ ⟨x, y⟩ r = ⟨0, 0⟩ := by
    intro x y r
    simp [resolveCircleCollision, hypot]
  refine ⟨h1, ?_⟩
  rw [h1]
  simp [hypot]

/-- Multiplying a clamped value by a factor in `[0, 1]` keeps it inside a
clamp interval that contains 0. -/
theorem clamp_mul_bounds (v lo hi f : ℚ) (hlo : lo ≤ 0) (hhi : 0 ≤ hi)
    (hf0 : 0 ≤ f) (hf1 : f ≤ 1) :
    lo ≤ clamp v lo hi * f ∧ clamp v lo hi * f ≤ hi := by
  obtain ⟨h1, h2⟩ := clamp_bounds v lo hi (le_trans hlo hhi)
  rcases le_total 0 (clamp v lo hi) with h | h
  · constructor <;> nlinarith
  · constructor <;> nlinarith

/-- Weakened form of `clamp_mul_bounds` for an enclosing interval. -/
theorem clamp_mul_bounds_le (v lo hi f lo2 hi2 : ℚ) (hlo2 : lo2 ≤ lo)
    (hhi2 : hi ≤ hi2) (hlo : lo ≤ 0) (hhi : 0 ≤ hi) (hf0 : 0 ≤ f) (hf1 : f ≤ 1) :
    lo2 ≤ clamp v lo hi * f ∧ clamp v lo hi * f ≤ hi2 := by
  obtain ⟨a, b⟩ := clamp_mul_bounds v lo hi f hlo hhi hf0 hf1
  exact ⟨le_trans hlo2 a, le_trans b hhi2⟩

/-- Form of `clamp_mul_bounds_le` matching the two damping factors of the
speed pipeline. -/
theorem clamp_mul_bounds2 (v lo hi f g lo2 hi2 : ℚ) (hlo2 : lo2 ≤ lo)
    (hhi2 : hi ≤ hi2) (hlo : lo ≤ 0) (hhi : 0 ≤ hi) (hf0 : 0 ≤ f) (hf1 : f ≤ 1)
    (hg0 : 0 ≤ g) (hg1 : g ≤ 1) :
    lo2 ≤ clamp v lo hi * f * g ∧ clamp v lo hi * f * g ≤ hi2 := by
  rw [mul_assoc]
  exact clamp_mul_bounds_le v lo hi (f * g) lo2 hi2 hlo2 hhi2 hlo hhi
    (mul_nonneg hf0 hg0) (by nlinarith)

/-- C6: speed stays bounded. After any single physics update — any incoming
speed, throttle, time step, surface and any number of post-clamp collision
damping factors — the resulting speed lies in `[-0.5 * 440, 440]`; on a
`ground` surface the effective bound is `440 * 0.55` (the penalty factor
`0.55 < 1`); and the collision damping factors only ever shrink the
absolute speed. Because the bound holds for every incoming speed, it holds
after every tick of any tick sequence. -/
theorem updateSpeed_bounded :
    ∀ (speed throttle dt : ℚ) (surface : Surface) (nObstacle nAI : ℕ),
      (-(440 * 0.5) ≤ updateSpeed speed throttle dt surface nObstacle nAI ∧
        updateSpeed speed throttle dt surface nObstacle nAI ≤ 440) ∧
      (surface = Surface.ground →
        -(440 * 0.55 * 0.5) ≤ updateSpeed speed throttle dt surface nObstacle nAI ∧
          updateSpeed speed throttle dt surface nObstacle nAI ≤ 440 * 0.55) ∧
      (∀ s : ℚ, |s * 0.6 ^ nObstacle * 0.7 ^ nAI| ≤ |s|) := by
  intro speed throttle dt surface nObstacle nAI
  have h6 : (0:ℚ) ≤ 0.6 ^ nObstacle := pow_nonneg (by norm_num) _
  have h7 : (0:ℚ) ≤ 0.7 ^ nAI := pow_nonneg (by norm_num) _
  have h6' : (0.6:ℚ) ^ nObstacle ≤ 1 := pow_le_one₀ (by norm_num) (by norm_num)
  have h7' : (0.7:ℚ) ^ nAI ≤ 1 := pow_le_one₀ (by norm_num) (by norm_num)
  have hf0 : (0:ℚ) ≤ 0.6 ^ nObstacle * 0.7 ^ nAI := mul_nonneg h6 h7
  have hf1 : (0.6:ℚ) ^ nObstacle * 0.7 ^ nAI ≤ 1 := by nlinarith
  have habs : ∀ s : ℚ, |s * 0.6 ^ nObstacle * 0.7 ^ nAI| ≤ |s| := by
    intro s
    rw [mul_assoc, abs_mul]
    calc |s| * |(0.6:ℚ) ^ nObstacle * 0.7 ^ nAI| ≤ |s| * 1 := by
          apply mul_le_mul_of_nonneg_left _ (abs_nonneg s)
          rw [abs_of_nonneg hf0]
          exact hf1
      _ = |s| := mul_one _
  rcases surface with _ | _ | _
  · refine ⟨?_, fun h => absurd h (by simp), habs⟩
    simp only [updateSpeed, reduceIte, reduceCtorEq]
    exact clamp_mul_bounds2 _ (-(440 * 0.5)) 440 _ _ (-(440 * 0.5)) 440
      le_rfl le_rfl (by norm_num) (by norm_num) h6 h6' h7 h7'
  · refine ⟨?_, fun _ => ?_, habs⟩
    · simp only [updateSpeed, reduceIte]
      exact clamp_mul_bounds2 _ (-(440 * 0.55 * 0.5)) (440 * 0.55) _ _
        (-(440 * 0.5)) 440 (by norm_num) (by norm_num) (by norm_num)
        (by norm_num) h6 h6' h7 h7'
    · simp only [updateSpeed, reduceIte]
      exact clamp_mul_bounds2 _ (-(440 * 0.55 * 0.5)) (440 * 0.55) _ _
        (-(440 * 0.55 * 0.5)) (440 * 0.55) le_rfl le_rfl (by norm_num)
        (by norm_num) h6 h6' h7 h7'
  · refine ⟨?_, fun h => absurd h (by simp), habs⟩
    simp only [updateSpeed, reduceIte, reduceCtorEq]
    exact clamp_mul_bounds2 _ (-(440 * 0.5)) 440 _ _ (-(440 * 0.5)) 440
      le_rfl le_rfl (by norm_num) (by norm_num) h6 h6' h7 h7'

/-- Witness for `updateSpeed_bounded` at a concrete ground-surface tick. -/
theorem updateSpeed_bounded_witness :
    -(440 * 0.55 * 0.5 : ℚ) ≤ updateSpeed 0 1 (1/60) Surface.ground 0 0 ∧
      updateSpeed 0 1 (1/60) Surface.ground 0 0 ≤ 440 * 0.55 :=
  (updateSpeed_bounded 0 1 (1/60) Surface.ground 0 0).2.1 rfl

set_option maxHeartbeats 1000000 in
/-- Processing one object never touches `raceLaps`. -/
theorem processObject_raceLaps (tm : List TilesetMeta) (ti : List ℕ)
    (o : TiledObject) (s : GameState) (acc : LoadAcc) (obs : List Obstacle)
    (f : Bool) : (processObject tm ti o s acc obs f).1.raceLaps = s.raceLaps := by
  unfold processObject
  dsimp only
  repeat' split
  all_goals rfl

/-- The object loop never touches `raceLaps`. -/
theorem processObjects_raceLaps (tm : List TilesetMeta) (ti : List ℕ) :
    ∀ (objects : List TiledObject) (s : GameState) (acc : LoadAcc)
      (obs : List Obstacle) (f : Bool),
      (processObjects tm ti objects s acc obs f).1.raceLaps = s.raceLaps := by
  intro objects
  induction objects with
  | nil => intro s acc obs f; rfl
  | cons o rest ih =>
    intro s acc obs f
    unfold processObjects
    have h := processObject_raceLaps tm ti o s acc obs f
    rcases hpo : processObject tm ti o s acc obs f with ⟨s1, acc1, obs1, f1⟩
    rw [hpo] at h
    dsimp only at h ⊢
    exact (ih s1 acc1 obs1 f1).trans h

/-- The `track_path` handling never touches `raceLaps`. -/
theorem applyTrackPath_raceLaps (lname : String) (objects : List TiledObject)
    (s : GameState) : (applyTrackPath lname objects s).raceLaps = s.raceLaps := by
  unfold applyTrackPath
  dsimp only
  repeat' split
  all_goals rfl

/-- The `foundObjects` block never touches `raceLaps`. -/
theorem applyFoundObjects_raceLaps (newObstacles : List Obstacle)
    (newMapCheckpoints : List IndexedCheckpoint) (s : GameState) :
    (applyFoundObjects newObstacles newMapCheckpoints s).raceLaps = s.raceLaps := by
  unfold applyFoundObjects
  dsimp only
  repeat' split
  all_goals rfl

/-- An object layer never touches `raceLaps`. -/
theorem processObjectGroup_raceLaps (tm : List TilesetMeta) (ti : List ℕ)
    (lname : String) (objects : List TiledObject) (s : GameState) (acc : LoadAcc) :
    (processObjectGroup tm ti lname objects s acc).1.raceLaps = s.raceLaps := by
  unfold processObjectGroup
  dsimp only
  have h := processObjects_raceLaps tm ti objects (applyTrackPath lname objects s)
    acc [] false
  rcases hpo : processObjects tm ti objects (applyTrackPath lname objects s)
    acc [] false with ⟨s2, acc2, obs2, f2⟩
  rw [hpo] at h
  dsimp only at h ⊢
  split
  · rw [applyFoundObjects_raceLaps]
    exact h.trans (applyTrackPath_raceLaps lname objects s)
  · exact h.trans (applyTrackPath_raceLaps lname objects s)

/-- The layer loop never touches `raceLaps`, on either exit. -/
theorem processLayers_raceLaps (tm : List TilesetMeta) (ti : List ℕ) :
    ∀ (layers : List TiledLayer) (s : GameState) (acc : LoadAcc),
      (match processLayers tm ti layers s acc with
       | Except.error e => e.raceLaps
       | Except.ok (s', _) => s'.raceLaps) = s.raceLaps := by
  intro layers
  induction layers with
  | nil => intro s acc; rfl
  | cons layer rest ih =>
    intro s acc
    cases layer with
    | tile l =>
      unfold processLayers
      cases hd : decodeLayerData l.dataSpec with
      | error e => rfl
      | ok od =>
        cases od with
        | none => exact ih s acc
        | some xs =>
          dsimp only
          by_cases hxs : xs ≠ []
          · rw [if_pos hxs]
            exact ih s _
          · rw [if_neg hxs]
            exact ih s acc
    | objectgroup lname objects =>
      unfold processLayers
      have h := processObjectGroup_raceLaps tm ti lname objects s acc
      rcases hg : processObjectGroup tm ti lname objects s acc with ⟨s1, acc1⟩
      rw [hg] at h
      dsimp only at h ⊢
      exact (ih s1 acc1).trans h
    | otherKind => exact ih s acc

/-- Hypothesis form of `processLayers_raceLaps` for a failed run. -/
theorem processLayers_raceLaps_error {tm : List TilesetMeta} {ti : List ℕ}
    {layers : List TiledLayer} {s : GameState} {acc : LoadAcc} {e : GameState}
    (h : processLayers tm ti layers s acc = Except.error e) :
    e.raceLaps = s.raceLaps := by
  have h2 := processLayers_raceLaps tm ti layers s acc
  rw [h] at h2
  exact h2

/-- Hypothesis form of `processLayers_raceLaps` for a completed run. -/
theorem processLayers_raceLaps_ok {tm : List TilesetMeta} {ti : List ℕ}
    {layers : List TiledLayer} {s : GameState} {acc : LoadAcc} {s' : GameState}
    {acc' : LoadAcc} (h : processLayers tm ti layers s acc = Except.ok (s', acc')) :
    s'.raceLaps = s.raceLaps := by
  have h2 := processLayers_raceLaps tm ti layers s acc
  rw [h] at h2
  exact h2

/-- The pre-loop publishes never touch `raceLaps`. -/
theorem publishTilesets_raceLaps (doc : TiledMapDoc) (tm : List TilesetMeta)
    (ti : List ℕ) (s : GameState) :
    (publishTilesets doc tm ti s).raceLaps = s.raceLaps := by
  unfold publishTilesets
  dsimp only
  split <;> rfl

/-- The post-loop publishes never touch `raceLaps`. -/
theorem finalizeLoad_raceLaps (s : GameState) (acc : LoadAcc) :
    (finalizeLoad s acc).raceLaps = s.raceLaps := by
  unfold finalizeLoad
  dsimp only
  repeat' split
  all_goals rfl

/-- A numeric `laps` property sets `raceLaps` to `max 1 ⌊v⌋`. -/
theorem applyLaps_of_num (doc : TiledMapDoc) (s : GameState) (v : ℚ)
    (h : lapsNumOf doc = some v) : (applyLaps doc s).raceLaps = max 1 ⌊v⌋ := by
  unfold applyLaps
  unfold lapsNumOf at h
  cases hf : doc.properties.find? (fun p => p.name == "laps") with
  | none => rw [hf] at h; exact absurd h (by simp)
  | some p =>
    rw [hf] at h
    dsimp only at h ⊢
    cases hv : p.value with
    | num w =>
      rw [hv] at h
      simp only [Option.some.injEq] at h
      subst h
      rfl
    | other => rw [hv] at h; exact absurd h (by simp)

/-- Without a numeric `laps` property, `raceLaps` is untouched. -/
theorem applyLaps_of_none (doc : TiledMapDoc) (s : GameState)
    (h : lapsNumOf doc = Option.none) : (applyLaps doc s).raceLaps = s.raceLaps := by
  unfold applyLaps
  unfold lapsNumOf at h
  cases hf : doc.properties.find? (fun p => p.name == "laps") with
  | none => rfl
  | some p =>
    rw [hf] at h
    dsimp only at h ⊢
    cases hv : p.value with
    | num w => rw [hv] at h; exact absurd h (by simp)
    | other => rfl

/-- A fetched-and-parsed map load changes `raceLaps` exactly as the `laps`
property handling does, whatever else happens later in the load (including
a mid-parse failure). -/
theorem loadTiledMap_raceLaps (doc : TiledMapDoc) (imageFor : String → Bool)
    (s : GameState) :
    (loadTiledMap true (some doc) imageFor s).raceLaps = (applyLaps doc s).raceLaps := by
  unfold loadTiledMap runLoad
  rw [if_neg (by simp : ¬(true = false))]
  dsimp only
  split
  · next s' heq =>
    split at heq
    · exact absurd heq (by simp)
    · next s2 acc2 hP =>
      simp only [Except.ok.injEq] at heq
      rw [← heq]
      exact (finalizeLoad_raceLaps s2 acc2).trans
        ((processLayers_raceLaps_ok hP).trans (publishTilesets_raceLaps _ _ _ _))
  · next s' heq =>
    split at heq
    · next e hP =>
      simp only [Except.error.injEq] at heq
      rw [← heq]
      exact (processLayers_raceLaps_error hP).trans (publishTilesets_raceLaps _ _ _ _)
    · exact absurd heq (by simp)

/-- C8 counterexample: the claim requires a non-positive numeric `laps`
property to leave the lap count at its previous (default) value, but
loading a map whose `laps` property is `0` (present, numeric, not positive)
changes `raceLaps` from the default 3 to `max 1 ⌊0⌋ = 1`. -/
theorem loadTiledMap_laps_zero_cex :
    (loadTiledMap true (some (lapsOnlyDoc 0)) (fun _ => false) initialState).raceLaps = 1 ∧
    initialState.raceLaps = 3 ∧
    (loadTiledMap true (some (lapsOnlyDoc 0)) (fun _ => false) initialState).raceLaps ≠
      initialState.raceLaps := by
  refine ⟨rfl, rfl, ?_⟩
  intro h
  have h1 : (loadTiledMap true (some (lapsOnlyDoc 0)) (fun _ => false)
    initialState).raceLaps = 1 := rfl
  have h2 : initialState.raceLaps = 3 := rfl
  rw [h1, h2] at h
  exact absurd h (by decide)

/-- C8 (amended): the map-level `laps` property overrides the lap count
whenever it is present and numeric — regardless of sign — setting it to
`max 1 ⌊value⌋` (so any value below 1 still yields a lap count of 1,
rather than keeping the previous value); when the property is absent or
non-numeric the previous lap count is kept. -/
theorem loadTiledMap_laps_override :
    ∀ (doc : TiledMapDoc) (imageFor : String → Bool) (s : GameState),
      (∀ v : ℚ, lapsNumOf doc = some v →
        (loadTiledMap true (some doc) imageFor s).raceLaps = max 1 ⌊v⌋) ∧
      (lapsNumOf doc = Option.none →
        (loadTiledMap true (some doc) imageFor s).raceLaps = s.raceLaps) := by
  intro doc imageFor s
  constructor
  · intro v hv
    rw [loadTiledMap_raceLaps]
    exact applyLaps_of_num doc s v hv
  · intro hv
    rw [loadTiledMap_raceLaps]
    exact applyLaps_of_none doc s hv

/-- Witness for `loadTiledMap_laps_override` on a concrete two-lap map and
on a lap-free map. -/
theorem loadTiledMap_laps_override_witness :
    (loadTiledMap true (some (lapsOnlyDoc 2)) (fun _ => false) initialState).raceLaps = 2 := by
  have h := (loadTiledMap_laps_override (lapsOnlyDoc 2) (fun _ => false) initialState).1 2 rfl
  rw [h]
  norm_num

/-- C1 counterexample: map loading is not all-or-nothing. Loading a map
document whose `laps` property is 5 and whose single tile layer carries a
malformed base64 payload fails (the run ends in the `catch`), yet the
published lap count has already been changed from 3 to 5 — a half-applied
model survives the failure. -/
theorem loadTiledMap_not_atomic_cex :
    (∃ s', runLoad true (some (lapsThenFailDoc 5)) (fun _ => false) initialState =
      Except.error s') ∧
    (loadTiledMap true (some (lapsThenFailDoc 5)) (fun _ => false)
      initialState).raceLaps ≠ initialState.raceLaps := by
  refine ⟨⟨_, rfl⟩, ?_⟩
  intro h
  have h1 : (loadTiledMap true (some (lapsThenFailDoc 5)) (fun _ => false)
    initialState).raceLaps = 5 := rfl
  have h2 : initialState.raceLaps = 3 := rfl
  rw [h1, h2] at h
  exact absurd h (by decide)

/-- C1 (amended): `loadTiledMap` never lets a failure escape (the `catch`
swallows it), but a failing load is not rolled back: for every prior state
and every lap value, loading a document with a numeric `laps` property
followed by a layer whose payload fails to decode ends in the error branch,
yet leaves the lap count already overridden to `max 1 ⌊v⌋`, while the
fields the failed run never reached (checkpoints, obstacles, decoded tile
layers) keep their previous values. -/
theorem loadTiledMap_partial_on_failure :
    ∀ (s : GameState) (v : ℚ),
      (∃ s', runLoad true (some (lapsThenFailDoc v)) (fun _ => false) s =
        Except.error s') ∧
      (loadTiledMap true (some (lapsThenFailDoc v)) (fun _ => false) s).raceLaps =
        max 1 ⌊v⌋ ∧
      (loadTiledMap true (some (lapsThenFailDoc v)) (fun _ => false) s).checkpoints =
        s.checkpoints ∧
      (loadTiledMap true (some (lapsThenFailDoc v)) (fun _ => false) s).obstacles =
        s.obstacles ∧
      (loadTiledMap true (some (lapsThenFailDoc v)) (fun _ => false) s).tiledTileLayers =
        s.tiledTileLayers := by
  intro s v
  exact ⟨⟨_, rfl⟩, rfl, rfl, rfl, rfl⟩

/-- A position whose tile cell lies outside the map bounds never yields a
tile: every guard of `getTileAt` returns 0 there. -/
theorem getTileAt_out_of_bounds (tileW tileH : ℚ) (mw mh : ℕ)
    (layers : List TileLayer) (x y : ℚ) (hmw : mw ≠ 0) (hmh : mh ≠ 0)
    (h : ¬(0 ≤ ⌊x / tileW⌋ ∧ 0 ≤ ⌊y / tileH⌋ ∧ ⌊x / tileW⌋ < (mw : ℤ) ∧
      ⌊y / tileH⌋ < (mh : ℤ))) :
    getTileAt tileW tileH mw mh layers x y = 0 := by
  unfold getTileAt
  cases layers with
  | nil => rfl
  | cons l0 rest =>
    dsimp only
    by_cases h1 : tileW ≤ 0 ∨ tileH ≤ 0
    · rw [if_pos h1]
    · rw [if_neg h1]
      by_cases h2 : ⌊x / tileW⌋ < 0 ∨ ⌊y / tileH⌋ < 0
      · rw [if_pos h2]
      · rw [if_neg h2]
        rw [if_pos hmw, if_pos hmh]
        rw [if_pos (show (mw : ℤ) ≤ ⌊x / tileW⌋ ∨ (mh : ℤ) ≤ ⌊y / tileH⌋ by
          push_neg at h h2
          omega)]

/-- C10: when at least one road-tagged tile layer exists, `getSurfaceAt`
classifies a road-tile hit as `road`; a position inside the map bounds that
hits neither a road tile nor a ground tile as `ground` (the speed-penalized
default); and a position outside the map bounds as `none`. -/
theorem getSurfaceAt_road_layers :
    ∀ (st : TiledState) (x y : ℚ),
      st.roadLayers ≠ [] → st.mapWidth ≠ 0 → st.mapHeight ≠ 0 →
      ((getTileAt st.mapTileWidth st.mapTileHeight st.mapWidth st.mapHeight
          st.roadLayers x y ≠ 0 → getSurfaceAt st x y = Surface.road) ∧
       (getTileAt st.mapTileWidth st.mapTileHeight st.mapWidth st.mapHeight
          st.roadLayers x y = 0 →
        getTileAt st.mapTileWidth st.mapTileHeight st.mapWidth st.mapHeight
          st.groundLayers x y = 0 →
        (0 ≤ ⌊x / st.mapTileWidth⌋ ∧ 0 ≤ ⌊y / st.mapTileHeight⌋ ∧
          ⌊x / st.mapTileWidth⌋ < (st.mapWidth : ℤ) ∧
          ⌊y / st.mapTileHeight⌋ < (st.mapHeight : ℤ)) →
          getSurfaceAt st x y = Surface.ground) ∧
       (¬(0 ≤ ⌊x / st.mapTileWidth⌋ ∧ 0 ≤ ⌊y / st.mapTileHeight⌋ ∧
          ⌊x / st.mapTileWidth⌋ < (st.mapWidth : ℤ) ∧
          ⌊y / st.mapTileHeight⌋ < (st.mapHeight : ℤ)) →
          getSurfaceAt st x y = Surface.none)) := by
  intro st x y hroad hmw hmh
  refine ⟨?_, ?_, ?_⟩
  · intro hhit
    unfold getSurfaceAt
    rw [if_pos hroad]
    dsimp only
    rw [if_pos hhit]
  · intro hmiss hgmiss hin
    unfold getSurfaceAt
    rw [if_pos hroad]
    dsimp only
    rw [if_neg (fun hc => hc hmiss)]
    rw [if_neg (show ¬(st.groundLayers ≠ [] ∧ getTileAt st.mapTileWidth
      st.mapTileHeight st.mapWidth st.mapHeight st.groundLayers x y ≠ 0) from
      fun hc => hc.2 hgmiss)]
    rw [if_pos hmw, if_pos hmh]
    rw [if_pos hin]
  · intro hout
    have hrm := getTileAt_out_of_bounds st.mapTileWidth st.mapTileHeight st.mapWidth
      st.mapHeight st.roadLayers x y hmw hmh hout
    have hgm := getTileAt_out_of_bounds st.mapTileWidth st.mapTileHeight st.mapWidth
      st.mapHeight st.groundLayers x y hmw hmh hout
    unfold getSurfaceAt
    rw [if_pos hroad]
    dsimp only
    rw [if_neg (fun hc => hc hrm)]
    rw [if_neg (show ¬(st.groundLayers ≠ [] ∧ getTileAt st.mapTileWidth
      st.mapTileHeight st.mapWidth st.mapHeight st.groundLayers x y ≠ 0) from
      fun hc => hc.2 hgm)]
    rw [if_pos hmw, if_pos hmh]
    rw [if_neg hout]

/-- Witness for `getSurfaceAt_road_layers`: in the concrete 2×2 map the
cell `(1, 0)` at position `(40, 8)` is inside the bounds, hits no road tile
and no ground tile, and is classified `ground`. -/
theorem getSurfaceAt_road_layers_witness :
    getSurfaceAt surfaceDemo 40 8 = Surface.ground := by
  apply (getSurfaceAt_road_layers surfaceDemo 40 8 (by decide) (by decide) (by decide)).2.1
  · norm_num [getTileAt, surfaceDemo, roadLayerDemo, firstRawGid]
  · norm_num [getTileAt, surfaceDemo]
  · refine ⟨?_, ?_, ?_, ?_⟩ <;> norm_num [surfaceDemo]

/-- The crossing scan only returns indices below `i +` the number of
checkpoints scanned. -/
theorem findCrossedAux_lt (x1 y1 x2 y2 : ℝ) :
    ∀ (cps : List Checkpoint) (i j : ℕ),
      findCrossedAux x1 y1 x2 y2 i cps = some j → j < i + cps.length := by
  intro cps
  induction cps with
  | nil => intro i j h; exact absurd h (by simp [findCrossedAux])
  | cons cp rest ih =>
    intro i j h
    unfold findCrossedAux at h
    split at h
    · simp only [Option.some.injEq] at h
      subst h
      simp only [List.length_cons]
      omega
    · have := ih (i + 1) j h
      simp only [List.length_cons]
      omega

/-- The crossed index is always a valid checkpoint index. -/
theorem findCrossed_lt {cps : List Checkpoint} {x1 y1 x2 y2 : ℝ} {j : ℕ}
    (h : findCrossed cps x1 y1 x2 y2 = some j) : j < cps.length := by
  have := findCrossedAux_lt x1 y1 x2 y2 cps 0 j h
  omega

/-- Respawning never changes the checkpoint progress counter. -/
theorem respawn_currentCheckpoint (idx : ℤ) (s : PhysState) :
    (respawnToCheckpoint idx s).currentCheckpoint = s.currentCheckpoint := rfl

/-- Respawning never changes the lap counter. -/
theorem respawn_lap (idx : ℤ) (s : PhysState) :
    (respawnToCheckpoint idx s).lap = s.lap := rfl

/-- C3: checkpoint progress is monotonic. Whenever the tick's movement
segment crosses a checkpoint (first match in index order), the progress
counter either advances by exactly 1 modulo the checkpoint count (when the
crossed index equals it) or stays unchanged; a crossing two or more ahead
runs the respawn routine without advancing; a crossing of an earlier index
is a no-op. -/
theorem checkpointPass_monotonic :
    ∀ (s : PhysState) (i : ℕ),
      findCrossed s.checkpoints s.lastX s.lastY s.carX s.carY = some i →
      ((i = s.currentCheckpoint →
          (checkpointPass s).currentCheckpoint =
            (s.currentCheckpoint + 1) % s.checkpoints.length) ∧
       (i ≠ s.currentCheckpoint →
          (checkpointPass s).currentCheckpoint = s.currentCheckpoint) ∧
       (s.currentCheckpoint + 2 ≤ i →
          checkpointPass s = respawnToCheckpoint s.lastCheckpointIndex s) ∧
       (i < s.currentCheckpoint → checkpointPass s = s)) := by
  intro s i h
  have hlen : i < s.checkpoints.length := findCrossed_lt h
  have hne : s.checkpoints.length ≠ 0 := by omega
  have hpass : checkpointPass s = checkpointStep (some i) s := by
    unfold checkpointPass
    rw [if_pos hne, h]
  refine ⟨?_, ?_, ?_, ?_⟩
  · intro heq
    subst heq
    rw [hpass]
    unfold checkpointStep
    dsimp only
    rw [if_pos rfl]
    by_cases hwrap : s.checkpoints.length ≤ s.currentCheckpoint + 1
    · rw [if_pos hwrap]
      dsimp only
      have hlen2 : s.checkpoints.length = s.currentCheckpoint + 1 := by omega
      rw [hlen2, Nat.mod_self]
    · rw [if_neg hwrap]
      dsimp only
      exact (Nat.mod_eq_of_lt (by omega)).symm
  · intro hne2
    rw [hpass]
    unfold checkpointStep
    dsimp only
    rw [if_neg hne2]
    by_cases hlt : s.currentCheckpoint < i
    · rw [if_pos hlt]
      exact respawn_currentCheckpoint _ _
    · rw [if_neg hlt]
  · intro h2
    rw [hpass]
    unfold checkpointStep
    dsimp only
    rw [if_neg (by omega), if_pos (by omega)]
  · intro h2
    rw [hpass]
    unfold checkpointStep
    dsimp only
    rw [if_neg (by omega), if_neg (by omega)]

/-- Witness for `checkpointPass_monotonic` at the specification scenario:
four checkpoints, `nextCheckpointIndex = 0`, the movement segment crosses
checkpoint 2 — the tick respawns and leaves the progress counter at 0. -/
theorem checkpointPass_monotonic_witness :
    (checkpointPass crossState).currentCheckpoint = crossState.currentCheckpoint ∧
    checkpointPass crossState = respawnToCheckpoint crossState.lastCheckpointIndex
      crossState := by
  have h0 : ¬ segmentIntersect 4 0 6 0 100 0 100 1 := by
    norm_num [segmentIntersect]
  have h1 : ¬ segmentIntersect 4 0 6 0 200 0 200 1 := by
    norm_num [segmentIntersect]
  have h2 : segmentIntersect 4 0 6 0 5 (-1) 5 1 := by
    norm_num [segmentIntersect]
  have hfc : findCrossed crossState.checkpoints crossState.lastX crossState.lastY
      crossState.carX crossState.carY = some 2 := by
    show findCrossedAux 4 0 6 0 0 crossState.checkpoints = some 2
    rw [show crossState.checkpoints = [⟨100, 0, 100, 1⟩, ⟨200, 0, 200, 1⟩,
      ⟨5, -1, 5, 1⟩, ⟨300, 0, 300, 1⟩] from rfl]
    simp only [findCrossedAux]
    rw [if_neg h0, if_neg h1, if_pos h2]
  have h := checkpointPass_monotonic crossState 2 hfc
  exact ⟨h.2.1 (by decide), h.2.2.1 (by decide)⟩

/-- C9: a skip-triggered respawn before any checkpoint has been passed
(`lastCheckpointIndex = -1`) teleports the vehicle to the start spawn pose,
zeroes its speed, and resets the previous-position trace to the new
position. -/
theorem checkpointStep_skip_start_fallback :
    ∀ (s : PhysState) (i : ℕ),
      s.lastCheckpointIndex = -1 → s.currentCheckpoint < i →
      (checkpointStep (some i) s).carX = s.startSpawn.x ∧
      (checkpointStep (some i) s).carY = s.startSpawn.y ∧
      (checkpointStep (some i) s).carAngle = s.startSpawn.angle ∧
      (checkpointStep (some i) s).carSpeed = 0 ∧
      (checkpointStep (some i) s).lastX = s.startSpawn.x ∧
      (checkpointStep (some i) s).lastY = s.startSpawn.y := by
  intro s i hlast hlt
  have hstep : checkpointStep (some i) s = respawnToCheckpoint s.lastCheckpointIndex s := by
    unfold checkpointStep
    dsimp only
    rw [if_neg (by omega), if_pos hlt]
  rw [hstep, hlast]
  unfold respawnToCheckpoint
  dsimp only
  rw [if_neg (show ¬(0:ℤ) ≤ -1 by decide)]
  rw [if_neg (show ¬((0:ℤ) ≤ -1 ∧ s.checkpoints.length ≠ 0) from
    fun hc => absurd hc.1 (by decide))]
  exact ⟨rfl, rfl, rfl, rfl, rfl, rfl⟩

/-- Witness for `checkpointStep_skip_start_fallback` at the concrete
skip-crossing state (no checkpoint passed yet, crossing index 2). -/
theorem checkpointStep_skip_start_fallback_witness :
    (checkpointStep (some 2) crossState).carX = crossState.startSpawn.x ∧
    (checkpointStep (some 2) crossState).carY = crossState.startSpawn.y ∧
    (checkpointStep (some 2) crossState).carAngle = crossState.startSpawn.angle ∧
    (checkpointStep (some 2) crossState).carSpeed = 0 ∧
    (checkpointStep (some 2) crossState).lastX = crossState.startSpawn.x ∧
    (checkpointStep (some 2) crossState).lastY = crossState.startSpawn.y :=
  checkpointStep_skip_start_fallback crossState 2 rfl (by decide)

/-- An in-order crossing sequence `k, k+1, …, N-1` from progress `k` wraps
the counter to 0 and increments the lap exactly once. -/
theorem checkpointStep_cycleAux :
    ∀ (n k : ℕ) (s : PhysState), 1 ≤ n → s.checkpoints.length = k + n →
      s.currentCheckpoint = k →
      (((List.range' k n).foldl (fun st i => checkpointStep (some i) st) s).lap
          = s.lap + 1 ∧
       ((List.range' k n).foldl (fun st i => checkpointStep (some i) st)
          s).currentCheckpoint = 0) := by
  intro n
  induction n with
  | zero => intro k s hn; exact absurd hn (by omega)
  | succ m ih =>
    intro k s hn hlen hcur
    rw [List.range'_succ]
    simp only [List.foldl_cons]
    cases m with
    | zero =>
      have hstep : checkpointStep (some k) s =
          { s with
            lastCheckpointIndex := (k : ℤ)
            currentCheckpoint := 0
            lap := s.lap + 1 } := by
        unfold checkpointStep
        dsimp only
        rw [if_pos hcur.symm, if_pos (by omega)]
      rw [hstep]
      exact ⟨rfl, rfl⟩
    | succ m' =>
      have hstep : checkpointStep (some k) s =
          { s with
            lastCheckpointIndex := (k : ℤ)
            currentCheckpoint := s.currentCheckpoint + 1 } := by
        unfold checkpointStep
        dsimp only
        rw [if_pos hcur.symm, if_neg (by omega)]
      rw [hstep]
      have hres := ih (k + 1)
        { s with
          lastCheckpointIndex := (k : ℤ)
          currentCheckpoint := s.currentCheckpoint + 1 }
        (by omega) (by dsimp only; omega) (by dsimp only; omega)
      exact ⟨hres.1, hres.2⟩

/-- C4: the lap counter increments exactly once per full in-order cycle
through all N checkpoints — crossing `0, 1, …, N-1` from
`nextCheckpointIndex = 0` adds exactly 1 to `lap` and resets the counter
to 0 — and neither a skip (respawn) crossing nor an ignored already-passed
crossing ever changes `lap`. -/
theorem lap_cycle :
    (∀ s : PhysState, s.checkpoints.length ≠ 0 → s.currentCheckpoint = 0 →
      (((List.range s.checkpoints.length).foldl
          (fun st i => checkpointStep (some i) st) s).lap = s.lap + 1 ∧
       ((List.range s.checkpoints.length).foldl
          (fun st i => checkpointStep (some i) st) s).currentCheckpoint = 0)) ∧
    (∀ (s : PhysState) (i : ℕ), i ≠ s.currentCheckpoint →
      (checkpointStep (some i) s).lap = s.lap) := by
  constructor
  · intro s hne hcur
    rw [List.range_eq_range']
    exact checkpointStep_cycleAux s.checkpoints.length 0 s (by omega) (by omega) hcur
  · intro s i hne
    unfold checkpointStep
    dsimp only
    rw [if_neg hne]
    by_cases hlt : s.currentCheckpoint < i
    · rw [if_pos hlt]
      exact respawn_lap _ _
    · rw [if_neg hlt]

/-- Witness for `lap_cycle`: crossing checkpoints 0, 1, 2, 3 of the
four-checkpoint state in order takes the lap counter from 1 to 2 and resets
the progress counter to 0. -/
theorem lap_cycle_witness :
    (((List.range crossState.checkpoints.length).foldl
        (fun st i => checkpointStep (some i) st) crossState).lap = 2) ∧
    (((List.range crossState.checkpoints.length).foldl
        (fun st i => checkpointStep (some i) st) crossState).currentCheckpoint = 0) := by
  have h := lap_cycle.1 crossState (by decide) rfl
  exact ⟨h.1, h.2⟩

/-- A positive shift away from the clamping interval does not move the
clamped point. -/
theorem clamp_shift (v lo hi c : ℝ) (hlohi : lo ≤ hi) (hc : 0 < c) :
    clamp (v + (v - clamp v lo hi) * c) lo hi = clamp v lo hi := by
  unfold clamp
  rcases lt_or_le v lo with h | h
  · have h1 : min hi v = v := min_eq_right (le_trans h.le hlohi)
    have h2 : max lo v = lo := max_eq_left h.le
    rw [h1, h2]
    have harg : v + (v - lo) * c < lo := by nlinarith
    rw [min_eq_right (le_trans harg.le hlohi), max_eq_left harg.le]
  · rcases le_or_lt v hi with h' | h'
    · have h1 : min hi v = v := min_eq_right h'
      have h2 : max lo v = v := max_eq_right h
      rw [h1, h2]
      have harg : v + (v - v) * c = v := by ring
      rw [harg, min_eq_right h', max_eq_right h]
    · have h1 : min hi v = hi := min_eq_left h'.le
      have h2 : max lo hi = hi := max_eq_right hlohi
      rw [h1, h2]
      have harg : hi < v + (v - hi) * c := by nlinarith
      rw [min_eq_left harg.le, max_eq_right hlohi]

/-- Shifting radially away from the clamped point scales the offset by
`1 + c`. -/
theorem clamp_shift_val (v lo hi c : ℝ) (hlohi : lo ≤ hi) (hc : 0 < c) :
    (v + (v - clamp v lo hi) * c) - clamp (v + (v - clamp v lo hi) * c) lo hi =
      (v - clamp v lo hi) * (1 + c) := by
  rw [clamp_shift v lo hi c hlohi hc]
  ring

/-- Scaling an offset of length `D` by `r / D` yields length exactly `r`. -/
theorem sep_core (dx dy r D : ℝ) (hD : hypot dx dy = D) (hr : 0 ≤ r)
    (hd : 0 < D) : hypot (dx * (r / D)) (dy * (r / D)) = r := by
  rw [hypot_mul_const, hD, abs_of_nonneg (div_nonneg hr hd.le)]
  field_simp

/-- C5 (amended): collision resolution is separating for every overlapping
pair whose distance (center to center, or center to nearest rectangle
point) is strictly positive — applying the returned translation moves the
circle to distance exactly the radius sum, so the shapes no longer overlap.
(When that distance is zero the translation is the zero vector and the
shapes remain overlapping; see the counterexample.) -/
theorem collision_resolution_separates :
    (∀ (a b : P2) (r : ℝ), 0 ≤ r → circleCircleCollision a b r →
      0 < hypot (a.x - b.x) (a.y - b.y) →
      hypot ((a.x + (resolveCircleCollision a b r).x) - b.x)
        ((a.y + (resolveCircleCollision a b r).y) - b.y) = r ∧
      ¬ circleCircleCollision ⟨a.x + (resolveCircleCollision a b r).x,
          a.y + (resolveCircleCollision a b r).y⟩ b r) ∧
    (∀ (cx cy r rx ry rw rh : ℝ), 0 ≤ r → 0 ≤ rw → 0 ≤ rh →
      circleRectCollision cx cy r rx ry rw rh →
      0 < hypot (cx - clamp cx rx (rx + rw)) (cy - clamp cy ry (ry + rh)) →
      hypot ((cx + (resolveCircleRect cx cy r rx ry rw rh).x) -
          clamp (cx + (resolveCircleRect cx cy r rx ry rw rh).x) rx (rx + rw))
        ((cy + (resolveCircleRect cx cy r rx ry rw rh).y) -
          clamp (cy + (resolveCircleRect cx cy r rx ry rw rh).y) ry (ry + rh)) = r ∧
      ¬ circleRectCollision (cx + (resolveCircleRect cx cy r rx ry rw rh).x)
        (cy + (resolveCircleRect cx cy r rx ry rw rh).y) r rx ry rw rh) := by
  constructor
  · intro a b r hr hcol hd
    obtain ⟨D, hD⟩ : ∃ D, hypot (a.x - b.x) (a.y - b.y) = D := ⟨_, rfl⟩
    rw [hD] at hd
    have hdne : D ≠ 0 := ne_of_gt hd
    have hres : resolveCircleCollision a b r =
        ⟨(a.x - b.x) / D * (r - D), (a.y - b.y) / D * (r - D)⟩ := by
      unfold resolveCircleCollision
      dsimp only
      rw [hD, if_neg hdne]
    rw [hres]
    dsimp only
    have hx : (a.x + (a.x - b.x) / D * (r - D)) - b.x = (a.x - b.x) * (r / D) := by
      field_simp
      ring
    have hy : (a.y + (a.y - b.y) / D * (r - D)) - b.y = (a.y - b.y) * (r / D) := by
      field_simp
      ring
    have hsep : hypot ((a.x - b.x) * (r / D)) ((a.y - b.y) * (r / D)) = r :=
      sep_core _ _ r D hD hr hd
    constructor
    · rw [hx, hy]
      exact hsep
    · unfold circleCircleCollision
      dsimp only
      rw [hx, hy]
      intro hlt
      nlinarith [hypot_sq ((a.x - b.x) * (r / D)) ((a.y - b.y) * (r / D)), hsep]
  · intro cx cy r rx ry rw rh hr hrw hrh hcol hd
    have hlohi1 : rx ≤ rx + rw := by linarith
    have hlohi2 : ry ≤ ry + rh := by linarith
    obtain ⟨D, hD⟩ : ∃ D, hypot (cx - clamp cx rx (rx + rw))
      (cy - clamp cy ry (ry + rh)) = D := ⟨_, rfl⟩
    rw [hD] at hd
    have hdne : D ≠ 0 := ne_of_gt hd
    have hres : resolveCircleRect cx cy r rx ry rw rh =
        ⟨(cx - clamp cx rx (rx + rw)) / D * (r - D),
         (cy - clamp cy ry (ry + rh)) / D * (r - D)⟩ := by
      unfold resolveCircleRect
      dsimp only
      rw [hD, if_neg hdne]
    have hDlt : D < r := by
      unfold circleRectCollision at hcol
      dsimp only at hcol
      have hsq := hypot_sq (cx - clamp cx rx (rx + rw)) (cy - clamp cy ry (ry + rh))
      rw [hD] at hsq
      nlinarith
    have hc : 0 < (r - D) / D := div_pos (by linarith) hd
    rw [hres]
    dsimp only
    have hx1 : cx + (cx - clamp cx rx (rx + rw)) / D * (r - D) =
        cx + (cx - clamp cx rx (rx + rw)) * ((r - D) / D) := by ring
    have hy1 : cy + (cy - clamp cy ry (ry + rh)) / D * (r - D) =
        cy + (cy - clamp cy ry (ry + rh)) * ((r - D) / D) := by ring
    rw [hx1, hy1]
    have hcsv1 := clamp_shift_val cx rx (rx + rw) ((r - D) / D) hlohi1 hc
    have hcsv2 := clamp_shift_val cy ry (ry + rh) ((r - D) / D) hlohi2 hc
    have h1pc : 1 + (r - D) / D = r / D := by
      field_simp
    have hsep : hypot ((cx - clamp cx rx (rx + rw)) * (1 + (r - D) / D))
        ((cy - clamp cy ry (ry + rh)) * (1 + (r - D) / D)) = r := by
      rw [h1pc]
      exact sep_core _ _ r D hD hr hd
    constructor
    · rw [hcsv1, hcsv2]
      exact hsep
    · unfold circleRectCollision
      dsimp only
      rw [hcsv1, hcsv2]
      intro hlt
      nlinarith [hypot_sq ((cx - clamp cx rx (rx + rw)) * (1 + (r - D) / D))
        ((cy - clamp cy ry (ry + rh)) * (1 + (r - D) / D)), hsep]

/-- C5 counterexample: a circle strictly inside a rectangle (nearest-point
distance zero) is reported as overlapping, but applying the resolution
translation — the zero vector — leaves it overlapping. -/
theorem resolveCircleRect_inside_cex :
    circleRectCollision 50 50 10 0 0 100 100 ∧
    resolveCircleRect 50 50 10 0 0 100 100 = ⟨0, 0⟩ ∧
    circleRectCollision (50 + (resolveCircleRect 50 50 10 0 0 100 100).x)
      (50 + (resolveCircleRect 50 50 10 0 0 100 100).y) 10 0 0 100 100 := by
  have h1 : circleRectCollision 50 50 10 0 0 100 100 := by
    norm_num [circleRectCollision, clamp, min_def, max_def]
  have h2 : resolveCircleRect 50 50 10 0 0 100 100 = ⟨0, 0⟩ := by
    unfold resolveCircleRect
    norm_num [clamp, min_def, max_def, hypot]
  refine ⟨h1, h2, ?_⟩
  rw [h2]
  dsimp only
  norm_num
  exact h1

/-- Witness for `collision_resolution_separates`: a vehicle circle 3 units
from the obstacle center with radius sum 36 is pushed to distance exactly
36 and no longer overlaps. -/
theorem collision_resolution_separates_witness :
    hypot ((103 + (resolveCircleCollision ⟨103, 100⟩ ⟨100, 100⟩ 36).x) - 100)
      ((100 + (resolveCircleCollision ⟨103, 100⟩ ⟨100, 100⟩ 36).y) - 100) = 36 ∧
    ¬ circleCircleCollision ⟨103 + (resolveCircleCollision ⟨103, 100⟩ ⟨100, 100⟩ 36).x,
        100 + (resolveCircleCollision ⟨103, 100⟩ ⟨100, 100⟩ 36).y⟩ ⟨100, 100⟩ 36 := by
  have hd : 0 < hypot ((103:ℝ) - 100) (100 - 100) := by
    unfold hypot
    apply Real.sqrt_pos.mpr
    norm_num
  exact collision_resolution_separates.1 ⟨103, 100⟩ ⟨100, 100⟩ 36 (by norm_num)
    (by norm_num [circleCircleCollision]) hd

/-- Every kept track segment has positive length and endpoint
`b = a + (dx, dy)`. -/
theorem buildTrackSegments_mem :
    ∀ (path : List Pt) (seg : TrackSegment), seg ∈ buildTrackSegments path →
      0 < seg.len ∧ seg.b.x = seg.a.x + seg.dx ∧ seg.b.y = seg.a.y + seg.dy := by
  intro path
  induction path with
  | nil => intro seg h; exact absurd h (by simp [buildTrackSegments])
  | cons p path' ih =>
    intro seg h
    cases path' with
    | nil => exact absurd h (by simp [buildTrackSegments])
    | cons q rest =>
      unfold buildTrackSegments at h
      dsimp only at h
      by_cases hlen : hypot (q.x - p.x) (q.y - p.y) ≤ 0
      · rw [if_pos hlen] at h
        exact ih seg h
      · rw [if_neg hlen] at h
        rw [List.mem_cons] at h
        rcases h with rfl | h
        · refine ⟨lt_of_not_le hlen, ?_, ?_⟩ <;> dsimp only <;> ring
        · exact ih seg h

/-- The first kept segment starts at the coordinates of the first
centerline point (dropped zero-length spans do not move it). -/
theorem buildTrackSegments_head :
    ∀ (path' : List Pt) (p : Pt) (s : TrackSegment) (rest : List TrackSegment),
      buildTrackSegments (p :: path') = s :: rest → s.a.x = p.x ∧ s.a.y = p.y := by
  intro path'
  induction path' with
  | nil => intro p s rest h; exact absurd h (by simp [buildTrackSegments])
  | cons q rest' ih =>
    intro p s rest h
    unfold buildTrackSegments at h
    dsimp only at h
    by_cases hlen : hypot (q.x - p.x) (q.y - p.y) ≤ 0
    · rw [if_pos hlen] at h
      have hz : hypot (q.x - p.x) (q.y - p.y) = 0 :=
        le_antisymm hlen (hypot_nonneg _ _)
      obtain ⟨hx0, hy0⟩ := (hypot_eq_zero_iff _ _).mp hz
      obtain ⟨ha, hb⟩ := ih q s rest h
      constructor
      · rw [ha]; linarith [sub_eq_zero.mp hx0]
      · rw [hb]; linarith [sub_eq_zero.mp hy0]
    · rw [if_neg hlen] at h
      simp only [List.cons.injEq] at h
      obtain ⟨h1, -⟩ := h
      exact ⟨by rw [← h1], by rw [← h1]⟩

/-- When every span of a polyline is zero-length (so no segment is built),
all its points coincide with the first one, in particular the last. -/
theorem buildTrackSegments_nil_last :
    ∀ (rest : List Pt) (q : Pt), buildTrackSegments (q :: rest) = [] →
      (q :: rest).getLast?.map Pt.x = some q.x ∧
      (q :: rest).getLast?.map Pt.y = some q.y := by
  intro rest
  induction rest with
  | nil => intro q h; constructor <;> rfl
  | cons r rest' ih =>
    intro q h
    unfold buildTrackSegments at h
    dsimp only at h
    by_cases hlen : hypot (r.x - q.x) (r.y - q.y) ≤ 0
    · rw [if_pos hlen] at h
      have hz : hypot (r.x - q.x) (r.y - q.y) = 0 :=
        le_antisymm hlen (hypot_nonneg _ _)
      obtain ⟨hx0, hy0⟩ := (hypot_eq_zero_iff _ _).mp hz
      obtain ⟨ha, hb⟩ := ih r h
      rw [List.getLast?_cons_cons]
      constructor
      · rw [ha]
        congr 1
        linarith [sub_eq_zero.mp hx0]
      · rw [hb]
        congr 1
        linarith [sub_eq_zero.mp hy0]
    · rw [if_neg hlen] at h
      exact absurd h (by simp)

/-- The last built segment ends at the coordinates of the last centerline
point. -/
theorem buildTrackSegments_last :
    ∀ (path : List Pt) (l : TrackSegment),
      (buildTrackSegments path).getLast? = some l →
      path.getLast?.map Pt.x = some l.b.x ∧ path.getLast?.map Pt.y = some l.b.y := by
  intro path
  induction path with
  | nil => intro l h; exact absurd h (by simp [buildTrackSegments])
  | cons p path' ih =>
    cases path' with
    | nil => intro l h; exact absurd h (by simp [buildTrackSegments])
    | cons q rest =>
      intro l h
      unfold buildTrackSegments at h
      dsimp only at h
      by_cases hlen : hypot (q.x - p.x) (q.y - p.y) ≤ 0
      · rw [if_pos hlen] at h
        obtain ⟨ha, hb⟩ := ih l h
        rw [List.getLast?_cons_cons]
        exact ⟨ha, hb⟩
      · rw [if_neg hlen] at h
        cases hb2 : buildTrackSegments (q :: rest) with
        | nil =>
          rw [hb2] at h
          simp only [List.getLast?_singleton, Option.some.injEq] at h
          obtain ⟨ha, hb⟩ := buildTrackSegments_nil_last rest q hb2
          rw [List.getLast?_cons_cons]
          subst h
          exact ⟨ha, hb⟩
        | cons s2 r2 =>
          rw [hb2] at h
          rw [List.getLast?_cons_cons] at h
          have hres := ih l (by rw [hb2]; exact h)
          rw [List.getLast?_cons_cons]
          exact hres

/-- A non-empty list of positive-length segments has positive total
length. -/
theorem trackLengthOf_pos (s : TrackSegment) (rest : List TrackSegment)
    (h : ∀ seg ∈ s :: rest, 0 < seg.len) : 0 < trackLengthOf (s :: rest) := by
  unfold trackLengthOf
  simp only [List.map_cons, List.sum_cons]
  have h0 : 0 < s.len := h s (by simp)
  have h1 : 0 ≤ (rest.map TrackSegment.len).sum := by
    apply List.sum_nonneg
    intro x hx
    obtain ⟨seg, hseg, rfl⟩ := List.mem_map.mp hx
    exact le_of_lt (h seg (by simp [hseg]))
  linarith

/-- Walking zero distance returns the current segment's start point. -/
theorem sampleWalk_zero (s : TrackSegment) (rest : List TrackSegment)
    (h : 0 ≤ s.len) : sampleWalk 0 s rest = ⟨s.a.x, s.a.y, atan2 s.dy s.dx⟩ := by
  cases rest with
  | nil =>
    unfold sampleWalk
    rw [if_pos h]
    simp
  | cons s2 r2 =>
    unfold sampleWalk
    rw [if_pos h]
    simp

/-- Walking the whole track length lands exactly on the final segment's
endpoint. -/
theorem sampleWalk_total :
    ∀ (rest : List TrackSegment) (s : TrackSegment),
      (∀ seg ∈ s :: rest, 0 < seg.len ∧ seg.b.x = seg.a.x + seg.dx ∧
        seg.b.y = seg.a.y + seg.dy) →
      sampleWalk (trackLengthOf (s :: rest)) s rest =
        ⟨((s :: rest).getLast (List.cons_ne_nil s rest)).b.x,
         ((s :: rest).getLast (List.cons_ne_nil s rest)).b.y,
         atan2 ((s :: rest).getLast (List.cons_ne_nil s rest)).dy
           ((s :: rest).getLast (List.cons_ne_nil s rest)).dx⟩ := by
  intro rest
  induction rest with
  | nil =>
    intro s hmem
    obtain ⟨hl, hbx, hby⟩ := hmem s (by simp)
    unfold sampleWalk trackLengthOf
    simp only [List.map_cons, List.map_nil, List.sum_cons, List.sum_nil]
    rw [if_pos (by linarith : s.len + 0 ≤ s.len)]
    simp only [List.getLast_singleton]
    rw [show s.len + 0 = s.len by ring, div_self (ne_of_gt hl)]
    simp only [mul_one]
    rw [← hbx, ← hby]
  | cons s2 rest' ih =>
    intro s hmem
    have hl := (hmem s (by simp)).1
    have hmem2 : ∀ seg ∈ s2 :: rest', 0 < seg.len ∧ seg.b.x = seg.a.x + seg.dx ∧
        seg.b.y = seg.a.y + seg.dy := fun seg hs => hmem seg (by simp [hs])
    have hTpos : 0 < trackLengthOf (s2 :: rest') :=
      trackLengthOf_pos s2 rest' (fun seg hs => (hmem2 seg hs).1)
    have htot : trackLengthOf (s :: s2 :: rest') =
        s.len + trackLengthOf (s2 :: rest') := by
      unfold trackLengthOf
      simp [List.map_cons, List.sum_cons]
    unfold sampleWalk
    rw [htot]
    rw [if_neg (by linarith : ¬(s.len + trackLengthOf (s2 :: rest') ≤ s.len))]
    rw [show s.len + trackLengthOf (s2 :: rest') - s.len =
      trackLengthOf (s2 :: rest') by ring]
    rw [ih s2 hmem2]
    rw [List.getLast_cons (List.cons_ne_nil s2 rest')]

/-- JavaScript's `Math.atan2(0, x)` for non-negative `x` is 0. -/
theorem atan2_zero_nonneg (x : ℝ) (hx : 0 ≤ x) : atan2 0 x = 0 := by
  unfold atan2
  rw [show (⟨x, 0⟩ : ℂ) = ((x : ℝ) : ℂ) from by apply Complex.ext <;> simp]
  exact Complex.arg_ofReal_of_nonneg hx

/-- JavaScript's `Math.atan2(y, 0)` for positive `y` is `π / 2`. -/
theorem atan2_pos_zero (y : ℝ) (hy : 0 < y) : atan2 y 0 = Real.pi / 2 := by
  unfold atan2
  rw [show (⟨0, y⟩ : ℂ) = ((y : ℝ) : ℂ) * Complex.I from by apply Complex.ext <;> simp]
  rw [Complex.arg_real_mul _ hy, Complex.arg_I]

/-- The built segments of the scenario centerline
`(0,0) - (100,0) - (100,100)`. -/
theorem buildTrackSegments_demo :
    buildTrackSegments demoPath =
      [⟨⟨0, 0⟩, ⟨100, 0⟩, 100, 100, 0⟩, ⟨⟨100, 0⟩, ⟨100, 100⟩, 100, 0, 100⟩] := by
  have h1 : hypot ((100:ℝ) - 0) (0 - 0) = 100 := by
    unfold hypot
    rw [show ((100:ℝ) - 0) * (100 - 0) + (0 - 0) * (0 - 0) = 100 ^ 2 by norm_num]
    exact Real.sqrt_sq (by norm_num)
  have h2 : hypot ((100:ℝ) - 100) (100 - 0) = 100 := by
    unfold hypot
    rw [show ((100:ℝ) - 100) * (100 - 100) + (100 - 0) * (100 - 0) = 100 ^ 2 by norm_num]
    exact Real.sqrt_sq (by norm_num)
  unfold demoPath
  simp only [buildTrackSegments]
  rw [h1, h2]
  rw [if_neg (by norm_num), if_neg (by norm_num)]
  norm_num

/-- C7: centerline sampling endpoints and interior values. For every
non-empty built track, `sampleTrack` at `t = 0` returns the centerline's
first point and at `t = 1` its last point; and for the scenario centerline
`(0,0)-(100,0)-(100,100)` the total length is 200, `sampleTrack 0.25` is
`(50, 0)` with heading 0 and `sampleTrack 0.75` is `(100, 50)` with heading
`π / 2`. -/
theorem sampleTrack_endpoints :
    (∀ (p : Pt) (path : List Pt) (s : TrackSegment) (segs' : List TrackSegment),
      buildTrackSegments (p :: path) = s :: segs' →
      (∃ u, sampleTrack (buildTrackSegments (p :: path)) 0 = some u ∧
        u.x = p.x ∧ u.y = p.y) ∧
      (∃ v, sampleTrack (buildTrackSegments (p :: path)) 1 = some v ∧
        (p :: path).getLast?.map Pt.x = some v.x ∧
        (p :: path).getLast?.map Pt.y = some v.y)) ∧
    (trackLengthOf (buildTrackSegments demoPath) = 200 ∧
     sampleTrack (buildTrackSegments demoPath) 0.25 = some ⟨50, 0, 0⟩ ∧
     sampleTrack (buildTrackSegments demoPath) 0.75 = some ⟨100, 50, Real.pi / 2⟩) := by
  constructor
  · intro p path s segs' hb
    have hmem : ∀ seg ∈ s :: segs', 0 < seg.len ∧ seg.b.x = seg.a.x + seg.dx ∧
        seg.b.y = seg.a.y + seg.dy :=
      fun seg hs => buildTrackSegments_mem (p :: path) seg (by rw [hb]; exact hs)
    have hpos : 0 < trackLengthOf (s :: segs') :=
      trackLengthOf_pos s segs' (fun seg hs => (hmem seg hs).1)
    have hne0 : trackLengthOf (s :: segs') ≠ 0 := ne_of_gt hpos
    rw [hb]
    constructor
    · refine ⟨⟨s.a.x, s.a.y, atan2 s.dy s.dx⟩, ?_, ?_, ?_⟩
      · unfold sampleTrack
        dsimp only
        rw [if_neg hne0, zero_mul]
        rw [sampleWalk_zero s segs' (le_of_lt (hmem s (by simp)).1)]
      · exact (buildTrackSegments_head path p s segs' hb).1
      · exact (buildTrackSegments_head path p s segs' hb).2
    · refine ⟨⟨((s :: segs').getLast (List.cons_ne_nil s segs')).b.x,
        ((s :: segs').getLast (List.cons_ne_nil s segs')).b.y,
        atan2 ((s :: segs').getLast (List.cons_ne_nil s segs')).dy
          ((s :: segs').getLast (List.cons_ne_nil s segs')).dx⟩, ?_, ?_, ?_⟩
      · unfold sampleTrack
        dsimp only
        rw [if_neg hne0, one_mul]
        rw [sampleWalk_total segs' s hmem]
      · exact (buildTrackSegments_last (p :: path) _
          (by rw [hb]; exact List.getLast?_eq_getLast _ (List.cons_ne_nil s segs'))).1
      · exact (buildTrackSegments_last (p :: path) _
          (by rw [hb]; exact List.getLast?_eq_getLast _ (List.cons_ne_nil s segs'))).2
  · have hTL : trackLengthOf (buildTrackSegments demoPath) = 200 := by
      rw [buildTrackSegments_demo]
      unfold trackLengthOf
      simp
      norm_num
    refine ⟨hTL, ?_, ?_⟩
    · rw [buildTrackSegments_demo]
      unfold sampleTrack
      dsimp only
      rw [if_neg (by rw [← buildTrackSegments_demo, hTL]; norm_num)]
      unfold sampleWalk
      dsimp only
      rw [if_pos (by norm_num [trackLengthOf] : (0.25:ℝ) *
        trackLengthOf [(⟨⟨0, 0⟩, ⟨100, 0⟩, 100, 100, 0⟩ : TrackSegment),
          ⟨⟨100, 0⟩, ⟨100, 100⟩, 100, 0, 100⟩] ≤ 100)]
      simp only [Option.some.injEq, TrackSample.mk.injEq]
      refine ⟨?_, ?_, ?_⟩
      · norm_num [trackLengthOf]
      · norm_num [trackLengthOf]
      · exact atan2_zero_nonneg 100 (by norm_num)
    · rw [buildTrackSegments_demo]
      unfold sampleTrack
      dsimp only
      rw [if_neg (by rw [← buildTrackSegments_demo, hTL]; norm_num)]
      unfold sampleWalk
      dsimp only
      rw [if_neg (by norm_num [trackLengthOf] : ¬((0.75:ℝ) *
        trackLengthOf [(⟨⟨0, 0⟩, ⟨100, 0⟩, 100, 100, 0⟩ : TrackSegment),
          ⟨⟨100, 0⟩, ⟨100, 100⟩, 100, 0, 100⟩] ≤ 100))]
      unfold sampleWalk
      dsimp only
      rw [if_pos (by norm_num [trackLengthOf] : (0.75:ℝ) *
        trackLengthOf [(⟨⟨0, 0⟩, ⟨100, 0⟩, 100, 100, 0⟩ : TrackSegment),
          ⟨⟨100, 0⟩, ⟨100, 100⟩, 100, 0, 100⟩] - 100 ≤ 100)]
      simp only [Option.some.injEq, TrackSample.mk.injEq]
      refine ⟨?_, ?_, ?_⟩
      · norm_num [trackLengthOf]
      · norm_num [trackLengthOf]
      · exact atan2_pos_zero 100 (by norm_num)

/-- Witness for `sampleTrack_endpoints` on the scenario centerline:
sampling at 0 returns its first point `(0, 0)` and sampling at 1 its last
point `(100, 100)`. -/
theorem sampleTrack_endpoints_witness :
    (∃ u, sampleTrack (buildTrackSegments demoPath) 0 = some u ∧
      u.x = (⟨0, 0⟩ : Pt).x ∧ u.y = (⟨0, 0⟩ : Pt).y) ∧
    (∃ v, sampleTrack (buildTrackSegments demoPath) 1 = some v ∧
      demoPath.getLast?.map Pt.x = some v.x ∧
      demoPath.getLast?.map Pt.y = some v.y) :=
  sampleTrack_endpoints.1 ⟨0, 0⟩ [⟨100, 0⟩, ⟨100, 100⟩] _ _ buildTrackSegments_demo

end TurboDrift
